import Mathlib

/-!
# Hook sidecars of `cmd/ksv-hook-sidecar` and `cmd/usb-hook-sidecar`

A shallow embedding of the two hook sidecars and the properties of their
annotation-driven domain mutation.

Conventions of the embedding.

* A Go `map[string]V` value is `Option (GoMap V)`: `none` is the nil map, and a
  `GoMap` is the table of a non-nil map, a list of entries with pairwise
  distinct keys.  The order of the list is the order in which one particular
  `for k, v := range m` visits the entries.
* A Go pointer `*T` is `Option T`, `none` being nil.
* Functions that mutate through a pointer return the updated value.
* Types declared outside these two packages (`virtwrapApi.Disk`,
  `virtwrapApi.Interface`, ...) keep the fields the hooks read or write; the
  remaining fields travel in a component of arbitrary type.
* Logging is not modelled.
-/

set_option autoImplicit false
set_option linter.dupNamespace false

/-! ## Go values shared by both hooks -/

/-- Table of a non-nil Go `map[string]V`. -/
structure GoMap (V : Type) where
  entries : List (String × V)
  nodup : (entries.map Prod.fst).Nodup

instance {V : Type} [DecidableEq V] : DecidableEq (GoMap V) := fun a b =>
  decidable_of_iff (a.entries = b.entries) (by cases a; cases b; simp)

/-- The statement `delete(m, k)` on a non-nil map. -/
def GoMap.delete {V : Type} (m : GoMap V) (k : String) : GoMap V where
  entries := m.entries.filter (fun p => p.1 != k)
  nodup := m.nodup.sublist ((List.filter_sublist m.entries).map Prod.fst)

/-- The assignment `m[k] = v` on a non-nil map. -/
def GoMap.set {V : Type} (m : GoMap V) (k : String) (v : V) : GoMap V where
  entries := (k, v) :: (m.delete k).entries
  nodup := by
    rw [List.map_cons, List.nodup_cons]
    refine ⟨?_, (m.delete k).nodup⟩
    intro h
    obtain ⟨p, hp, hpk⟩ := List.mem_map.mp h
    have := (List.mem_filter.mp hp).2
    simp [hpk] at this

/-- The comma-ok form `v, ok := m[k]`: `some v` when `k` is a key of `m`. -/
def mapIndex {V : Type} (m : Option (GoMap V)) (k : String) : Option V :=
  match m with
  | none => none
  | some t => t.entries.lookup k

/-- The plain form `m[k]`: the zero value of `V` when `k` is not a key. -/
def mapGet {V : Type} [Inhabited V] (m : Option (GoMap V)) (k : String) : V :=
  match mapIndex m k with
  | some v => v
  | none => default

/-- Entries visited by `for k, v := range m`; a nil map has none. -/
def mapRange {V : Type} (m : Option (GoMap V)) : List (String × V) :=
  match m with
  | none => []
  | some t => t.entries

/-- Go `[]byte`. -/
abbrev Bytes := List UInt8

/-- Go `error` values, kept as their message. -/
structure GoError where
  msg : String
deriving DecidableEq

/-- How a Go call ends: it returns its value together with an `error` (`none` is
the nil error), or it panics. -/
inductive Outcome (α : Type) where
  | returned (value : α) (err : Option GoError)
  | panicked (e : GoError)
deriving DecidableEq

/-- Calls into `encoding/xml`, in the order they are made. -/
inductive XmlCall where
  | unmarshal
  | marshal
deriving DecidableEq

/-- A finished call: how it ended and which `encoding/xml` calls it made. -/
structure Run (α : Type) where
  outcome : Outcome α
  xmlCalls : List XmlCall
deriving DecidableEq

/-- The struct `v1.VirtualMachineInstance`; the hooks read its annotations only. -/
structure VirtualMachineInstance where
  Annotations : Option (GoMap String)

/-- The message `OnDefineDomainParams`. -/
structure OnDefineDomainParams where
  Vmi : Bytes
  DomainXML : Bytes

/-- The message `OnDefineDomainResult`. -/
structure OnDefineDomainResult where
  DomainXML : Bytes
deriving DecidableEq

/-- The message `PreCloudInitIsoParams`. -/
structure PreCloudInitIsoParams where
  CloudInitData : Bytes

/-- The message `PreCloudInitIsoResult`. -/
structure PreCloudInitIsoResult where
  CloudInitData : Bytes
deriving DecidableEq

/-- Splitting a list of characters at every occurrence of `sep`. -/
def splitChars (sep : Char) : List Char → List (List Char)
  | [] => [[]]
  | c :: cs =>
    if c = sep then [] :: splitChars sep cs
    else
      match splitChars sep cs with
      | [] => [[c]]
      | h :: t => (c :: h) :: t

/-- The library function `strings.Split` for a separator of one character. -/
def stringsSplit (s : String) (sep : Char) : List String :=
  (splitChars sep s.toList).map String.mk

/-- The library function `strconv.Atoi` for a 64-bit `int`: an optional sign, then
one or more decimal digits, the value within the range of `int`; `none` stands
for a non-nil error. -/
def Atoi (s : String) : Option Int :=
  let signed : Bool × List Char := match s.toList with
    | '-' :: r => (true, r)
    | '+' :: r => (false, r)
    | cs => (false, cs)
  let ds := signed.2
  if ds.isEmpty || !ds.all Char.isDigit then none
  else
    let n : Nat := ds.foldl (fun a c => 10 * a + (c.toNat - 48)) 0
    if signed.1 then (if n ≤ 2 ^ 63 then some (-(n : Int)) else none)
    else (if n < 2 ^ 63 then some (n : Int) else none)

namespace Ksv

/-! ## `iftune.go` -/

/-- The struct `Inbound`. -/
@[ext]
structure Inbound where
  Average : String := ""
  Peak : String := ""
  Burst : String := ""
  Floor : String := ""
deriving DecidableEq

/-- The struct `Outbound`. -/
@[ext]
structure Outbound where
  Average : String := ""
  Peak : String := ""
  Burst : String := ""
deriving DecidableEq

/-- The struct `BandWidth`. -/
structure BandWidth where
  Inbound : Option Inbound := none
  Outbound : Option Outbound := none
deriving DecidableEq

/-- The constant `IfaceTuneAnno`. -/
def IfaceTuneAnno : String := "ifacetune.kubesphere.io/bandwidth"

/-- The struct `virtwrapApi.MAC`. -/
structure MAC where
  MAC : String
deriving DecidableEq

/-- The struct `virtwrapApi.Interface`: the `MAC` pointer, and the fields the hook
never touches in `rest`. -/
structure Interface (R : Type) where
  MAC : Option MAC
  rest : R
deriving DecidableEq

/-- The struct `MyInterface`. -/
structure MyInterface (R : Type) where
  Interface : Interface R
  BandWidth : Option BandWidth
deriving DecidableEq

/-- The struct `MyIfaceTuneAnno`. -/
structure MyIfaceTuneAnno where
  Inbound : Option (GoMap String)
  Outbound : Option (GoMap String)
deriving DecidableEq

/-- The `switch k` of the inbound loop of `adjustInterfaceAttributes`. -/
def inboundSwitch (ib : Inbound) (k v : String) : Inbound :=
  if k = "average" then { ib with Average := v }
  else if k = "peak" then { ib with Peak := v }
  else if k = "burst" then { ib with Burst := v }
  else if k = "floor" then { ib with Floor := v }
  else ib

/-- One iteration of the inbound loop: allocate the record when it is nil, then
run the switch. -/
def inboundStep (cur : Option Inbound) (kv : String × String) : Option Inbound :=
  let ib : Inbound := match cur with
    | none => {}
    | some ib => ib
  some (inboundSwitch ib kv.1 kv.2)

/-- The `switch k` of the outbound loop of `adjustInterfaceAttributes`. -/
def outboundSwitch (ob : Outbound) (k v : String) : Outbound :=
  if k = "average" then { ob with Average := v }
  else if k = "peak" then { ob with Peak := v }
  else if k = "burst" then { ob with Burst := v }
  else ob

/-- One iteration of the outbound loop. -/
def outboundStep (cur : Option Outbound) (kv : String × String) : Option Outbound :=
  let ob : Outbound := match cur with
    | none => {}
    | some ob => ob
  some (outboundSwitch ob kv.1 kv.2)

/-- The function `adjustInterfaceAttributes`; the updated interface is returned. -/
def adjustInterfaceAttributes {R : Type}
    (myIfaceTuneAnno : Option (GoMap (Option MyIfaceTuneAnno)))
    (myIface : MyInterface R) : MyInterface R :=
  match myIface.Interface.MAC with
  | none => myIface
  | some mac =>
    if mac.MAC = "" then myIface
    else
      match mapGet myIfaceTuneAnno mac.MAC with
      | none => myIface
      | some tuneAnno =>
        let bw : BandWidth := match myIface.BandWidth with
          | none => {}
          | some bw => bw
        let inb := (mapRange tuneAnno.Inbound).foldl inboundStep bw.Inbound
        let outb := (mapRange tuneAnno.Outbound).foldl outboundStep bw.Outbound
        { myIface with BandWidth := some { Inbound := inb, Outbound := outb } }

/-! ## `iotune.go` -/

/-- The struct `DiskIOTune`. -/
@[ext]
structure DiskIOTune where
  TotalBytesSec : Int := 0
  ReadBytesSec : Int := 0
  WriteBytesSec : Int := 0
  TotalIopsSec : Int := 0
  ReadIopsSec : Int := 0
  WriteIopsSec : Int := 0
  TotalBytesSecMax : Int := 0
  ReadBytesSecMax : Int := 0
  WriteBytesSecMax : Int := 0
  TotalIopsSecMax : Int := 0
  ReadIopsSecMax : Int := 0
  WriteIopsSecMax : Int := 0
  SizeIopsSec : Int := 0
  GroupName : String := ""
  TotalBytesSecMaxLen : Int := 0
  ReadBytesSecMaxLen : Int := 0
  WriteBytesSecMaxLen : Int := 0
  TotalIopsSecMaxLen : Int := 0
  ReadIopsSecMaxLen : Int := 0
  WriteIopsSecMaxLen : Int := 0
deriving DecidableEq

/-- The constant `DiskIoTuneAnno`. -/
def DiskIoTuneAnno : String := "iotune.kubesphere.io/disk"

/-- The struct `MyDisk`; `Disk` holds the embedded `virtwrapApi.Disk`. -/
structure MyDisk (D : Type) where
  Disk : D
  IoTune : Option DiskIOTune
deriving DecidableEq

/-- The function `updateToString`; the updated `*res` is returned. -/
def updateToString (para : String) (res : String) : String :=
  if para = "" then res else para

/-- The function `updateToInt`; the updated `*res` is returned. -/
def updateToInt (para : String) (res : Int) : Int :=
  if para = "" then res
  else
    match Atoi para with
    | some value => value
    | none => res

/-- The `switch k` of the loop of `adjustDiskAttributes`. -/
def diskSwitch (t : DiskIOTune) (k v : String) : DiskIOTune :=
  if k = "total_bytes_sec" then { t with TotalBytesSec := updateToInt v t.TotalBytesSec }
  else if k = "read_bytes_sec" then { t with ReadBytesSec := updateToInt v t.ReadBytesSec }
  else if k = "write_bytes_sec" then { t with WriteBytesSec := updateToInt v t.WriteBytesSec }
  else if k = "total_iops_sec" then { t with TotalIopsSec := updateToInt v t.TotalIopsSec }
  else if k = "read_iops_sec" then { t with ReadIopsSec := updateToInt v t.ReadIopsSec }
  else if k = "write_iops_sec" then { t with WriteIopsSec := updateToInt v t.WriteIopsSec }
  else if k = "total_bytes_sec_max" then
    { t with TotalBytesSecMax := updateToInt v t.TotalBytesSecMax }
  else if k = "read_bytes_sec_max" then
    { t with ReadBytesSecMax := updateToInt v t.ReadBytesSecMax }
  else if k = "write_bytes_sec_max" then
    { t with WriteBytesSecMax := updateToInt v t.WriteBytesSecMax }
  else if k = "total_iops_sec_max" then
    { t with TotalIopsSecMax := updateToInt v t.TotalIopsSecMax }
  else if k = "read_iops_sec_max" then
    { t with ReadIopsSecMax := updateToInt v t.ReadIopsSecMax }
  else if k = "write_iops_sec_max" then
    { t with WriteIopsSecMax := updateToInt v t.WriteIopsSecMax }
  else if k = "size_iops_sec" then { t with SizeIopsSec := updateToInt v t.SizeIopsSec }
  else if k = "group_name" then { t with GroupName := updateToString v t.GroupName }
  else if k = "total_bytes_sec_max_length" then
    { t with TotalBytesSecMaxLen := updateToInt v t.TotalBytesSecMaxLen }
  else if k = "read_bytes_sec_max_length" then
    { t with ReadBytesSecMaxLen := updateToInt v t.ReadBytesSecMaxLen }
  else if k = "write_bytes_sec_max_length" then
    { t with WriteBytesSecMaxLen := updateToInt v t.WriteBytesSecMaxLen }
  else if k = "total_iops_sec_max_length" then
    { t with TotalIopsSecMaxLen := updateToInt v t.TotalIopsSecMaxLen }
  else if k = "read_iops_sec_max_length" then
    { t with ReadIopsSecMaxLen := updateToInt v t.ReadIopsSecMaxLen }
  else if k = "write_iops_sec_max_length" then
    { t with WriteIopsSecMaxLen := updateToInt v t.WriteIopsSecMaxLen }
  else t

/-- One iteration of the loop of `adjustDiskAttributes`. -/
def diskStep (t : DiskIOTune) (kv : String × String) : DiskIOTune :=
  diskSwitch t kv.1 kv.2

/-- The function `adjustDiskAttributes`; the updated disk is returned. -/
def adjustDiskAttributes {D : Type} (myIoTune : Option (GoMap String))
    (myDisk : MyDisk D) : MyDisk D :=
  match myIoTune with
  | none => myDisk
  | some _ =>
    { myDisk with IoTune := some ((mapRange myIoTune).foldl diskStep {}) }

/-! ## `ksv.go` -/

/-- The struct `MyDevices`; `Devices` holds the embedded `virtwrapApi.Devices`. -/
structure MyDevices (D V : Type) where
  Devices : V
  Disks : List (MyDisk D)
deriving DecidableEq

/-- The struct `MyDomainSpec`; `DomainSpec` holds the embedded
`virtwrapApi.DomainSpec`. -/
structure MyDomainSpec (D V S : Type) where
  DomainSpec : S
  Devices : MyDevices D V
deriving DecidableEq

/-- The decoders and encoders of `encoding/json` and `encoding/xml` at the types
the hook uses them. `jsonUnmarshalIoTune` and `jsonUnmarshalIfTune` decode an
annotation value into a map made beforehand; the JSON value `null` leaves the
nil map. -/
structure Codec (D V S : Type) where
  jsonUnmarshalVmi : Bytes → Except GoError VirtualMachineInstance
  jsonUnmarshalIoTune : String → Except GoError (Option (GoMap String))
  jsonUnmarshalIfTune : String → Except GoError (Option (GoMap (Option MyIfaceTuneAnno)))
  jsonUnmarshalCloudInit : Bytes → Except GoError Unit
  xmlUnmarshal : Bytes → Except GoError (MyDomainSpec D V S)
  xmlMarshal : MyDomainSpec D V S → Except GoError Bytes

/-- The function `checkContinueForIfTune`. -/
def checkContinueForIfTune (vmi : VirtualMachineInstance) : Bool :=
  (mapIndex vmi.Annotations IfaceTuneAnno).isSome

/-- The function `checkContinueForIoTune`. -/
def checkContinueForIoTune (vmi : VirtualMachineInstance) : Bool :=
  (mapIndex vmi.Annotations DiskIoTuneAnno).isSome

/-- The function `checkContinue`. -/
def checkContinue (vmi : VirtualMachineInstance) : Bool :=
  if checkContinueForIoTune vmi then true else false

/-- The function `gotMyIfTuneParam`. -/
def gotMyIfTuneParam {D V S : Type} (c : Codec D V S) (annotations : Option (GoMap String)) :
    Option (GoMap (Option MyIfaceTuneAnno)) :=
  let tuneAnno := mapGet annotations IfaceTuneAnno
  if tuneAnno = "" then none
  else
    match c.jsonUnmarshalIfTune tuneAnno with
    | .error _ => none
    | .ok myIfaceTuneAnno => myIfaceTuneAnno

/-- The function `gotMyIoTuneParam`. -/
def gotMyIoTuneParam {D V S : Type} (c : Codec D V S) (annotations : Option (GoMap String)) :
    Option (GoMap String) :=
  let tuneAnno := mapGet annotations DiskIoTuneAnno
  if tuneAnno = "" then none
  else
    match c.jsonUnmarshalIoTune tuneAnno with
    | .error _ => none
    | .ok myIoTune => myIoTune

/-- The disk loop of `OnDefineDomain`: for each index in turn, the disk at that
index is copied, adjusted and written back. -/
def diskLoop {D : Type} (myIoTune : Option (GoMap String)) (disks : List (MyDisk D)) :
    List (MyDisk D) :=
  (List.range disks.length).foldl
    (fun ds i =>
      match ds.get? i with
      | some myDisk => ds.set i (adjustDiskAttributes myIoTune myDisk)
      | none => ds)
    disks

/-- The method `v1alpha2Server.OnDefineDomain`. -/
def OnDefineDomain {D V S : Type} (c : Codec D V S) (params : OnDefineDomainParams) :
    Run (Option OnDefineDomainResult) :=
  let vmiJSON := params.Vmi
  match c.jsonUnmarshalVmi vmiJSON with
  | .error _ =>
    { outcome := .returned (some { DomainXML := params.DomainXML }) none, xmlCalls := [] }
  | .ok vmi =>
    if !checkContinue vmi then
      { outcome := .returned (some { DomainXML := params.DomainXML }) none, xmlCalls := [] }
    else
      let myIoTune := gotMyIoTuneParam c vmi.Annotations
      let domainXML := params.DomainXML
      match c.xmlUnmarshal domainXML with
      | .error _ =>
        { outcome := .returned (some { DomainXML := params.DomainXML }) none,
          xmlCalls := [.unmarshal] }
      | .ok myDomainSpec =>
        let myDomainSpec : MyDomainSpec D V S :=
          { myDomainSpec with
            Devices := { myDomainSpec.Devices with
              Disks := diskLoop myIoTune myDomainSpec.Devices.Disks } }
        match c.xmlMarshal myDomainSpec with
        | .error _ =>
          { outcome := .returned (some { DomainXML := params.DomainXML }) none,
            xmlCalls := [.unmarshal, .marshal] }
        | .ok marshal =>
          { outcome := .returned (some { DomainXML := marshal }) none,
            xmlCalls := [.unmarshal, .marshal] }

/-- The method `v1alpha2Server.PreCloudInitIso`. -/
def PreCloudInitIso {D V S : Type} (c : Codec D V S) (params : PreCloudInitIsoParams) :
    Outcome (Option PreCloudInitIsoResult) :=
  let cloudInitDataJSON := params.CloudInitData
  match c.jsonUnmarshalCloudInit cloudInitDataJSON with
  | .error err => .panicked err
  | .ok _ => .returned (some { CloudInitData := cloudInitDataJSON }) none

end Ksv

namespace Usb

/-! ## `host-usb-device.go` -/

/-- The constant `hostUsbDeviceAnnotation`. -/
def hostUsbDeviceAnnotation : String := "host.usb.vm.kubevirt.io/device"

/-- The constant `hostUsbControllerAnnotation`. -/
def hostUsbControllerAnnotation : String := "host.usb.vm.kubevirt.io/controller"

/-- The struct `domainSchema.Controller`: the attributes the hook sets, and the
remaining fields in `rest`, whose `default` is their zero value. -/
structure Controller (C : Type) where
  Type_ : String
  Model : String
  Index : String
  rest : C
deriving DecidableEq

/-- The struct `domainSchema.ID`. -/
structure ID where
  Id : String
deriving DecidableEq

/-- The struct `domainSchema.HostDeviceSource`, its vendor and product. -/
structure HostDeviceSource where
  Vendor : ID
  Product : ID
deriving DecidableEq

/-- The struct `domainSchema.Address`, the attributes the hook sets. -/
structure Address where
  Type_ : String
  Bus : String
  Port : String
deriving DecidableEq

/-- The struct `domainSchema.HostDevice`: the fields the hook sets, and the
remaining fields in `rest`, whose `default` is their zero value. -/
structure HostDevice (H : Type) where
  Mode : String
  Type_ : String
  Managed : String
  Source : HostDeviceSource
  Address : Option Address
  rest : H
deriving DecidableEq

/-- The struct `domainSchema.Devices`. -/
structure Devices (C H V : Type) where
  Controllers : List (Controller C)
  HostDevices : List (HostDevice H)
  rest : V
deriving DecidableEq

/-- The struct `domainSchema.DomainSpec`. -/
structure DomainSpec (C H V S : Type) where
  Devices : Devices C H V
  rest : S
deriving DecidableEq

/-- The decoders and encoders of `encoding/json` and `encoding/xml` at the types
the hook uses them. -/
structure Codec (C H V S : Type) where
  jsonUnmarshalVmi : Bytes → Except GoError VirtualMachineInstance
  xmlUnmarshal : Bytes → Except GoError (DomainSpec C H V S)
  xmlMarshal : DomainSpec C H V S → Except GoError Bytes

/-- The two appends of `onDefineDomain`, lines 136 to 161: one USB controller and
one host USB device are added at the end of their lists. -/
def appendUsb {C H V S : Type} [Inhabited C] [Inhabited H] (ctlModel vendor product : String)
    (domainSpec : DomainSpec C H V S) : DomainSpec C H V S :=
  let controllers := domainSpec.Devices.Controllers ++
    [{ Type_ := "usb", Model := ctlModel, Index := "0", rest := default }]
  let hostDevices := domainSpec.Devices.HostDevices ++
    [{ Mode := "subsystem", Type_ := "usb", Managed := "yes",
       Source := { Vendor := { Id := vendor }, Product := { Id := product } },
       Address := some { Type_ := "usb", Bus := "0", Port := "1" },
       rest := default }]
  { domainSpec with
    Devices := { domainSpec.Devices with
      Controllers := controllers, HostDevices := hostDevices } }

/-- The function `onDefineDomain`. -/
def onDefineDomain {C H V S : Type} [Inhabited C] [Inhabited H] (c : Codec C H V S)
    (vmiJSON : Bytes) (domainXML : Bytes) : Run Bytes :=
  match c.jsonUnmarshalVmi vmiJSON with
  | .error err => { outcome := .panicked err, xmlCalls := [] }
  | .ok vmiSpec =>
    let annotations := vmiSpec.Annotations
    match mapIndex annotations hostUsbDeviceAnnotation with
    | none => { outcome := .returned domainXML none, xmlCalls := [] }
    | some device =>
      match stringsSplit device ':' with
      | [vendor, product] =>
        match c.xmlUnmarshal domainXML with
        | .error err => { outcome := .panicked err, xmlCalls := [.unmarshal] }
        | .ok domainSpec =>
          let ctlModel := mapGet annotations hostUsbControllerAnnotation
          let ctlModel := if ctlModel = "" then "piix3-uhci" else ctlModel
          let domainSpec := appendUsb ctlModel vendor product domainSpec
          match c.xmlMarshal domainSpec with
          | .error err => { outcome := .panicked err, xmlCalls := [.unmarshal, .marshal] }
          | .ok newDomainXML =>
            { outcome := .returned newDomainXML none, xmlCalls := [.unmarshal, .marshal] }
      | _ => { outcome := .returned domainXML none, xmlCalls := [] }

/-- The method `v1alpha2Server.OnDefineDomain`. -/
def OnDefineDomain {C H V S : Type} [Inhabited C] [Inhabited H] (c : Codec C H V S)
    (params : OnDefineDomainParams) : Outcome (Option OnDefineDomainResult) :=
  match (onDefineDomain c params.Vmi params.DomainXML).outcome with
  | .panicked e => .panicked e
  | .returned _ (some err) => .returned none (some err)
  | .returned newDomainXML none => .returned (some { DomainXML := newDomainXML }) none

/-- The method `v1alpha2Server.PreCloudInitIso`. -/
def PreCloudInitIso (params : PreCloudInitIsoParams) : Outcome (Option PreCloudInitIsoResult) :=
  .returned (some { CloudInitData := params.CloudInitData }) none

end Usb

/-! ## Vocabulary of the statements -/

namespace Ksv

/-- Inbound record an interface carries; the record of empty fields when it has no
bandwidth block or no inbound record. -/
def MyInterface.inbound {R : Type} (i : MyInterface R) : Inbound :=
  match i.BandWidth with
  | none => {}
  | some bw =>
    match bw.Inbound with
    | none => {}
    | some ib => ib

/-- Outbound record an interface carries; the record of empty fields when it has no
bandwidth block or no outbound record. -/
def MyInterface.outbound {R : Type} (i : MyInterface R) : Outbound :=
  match i.BandWidth with
  | none => {}
  | some bw =>
    match bw.Outbound with
    | none => {}
    | some ob => ob

/-- Value an overlay map gives a string field: the value stored under `key` when
`key` is a key of the map, the prior value otherwise. -/
def overlayField (m : Option (GoMap String)) (key : String) (prior : String) : String :=
  match mapIndex m key with
  | some v => v
  | none => prior

/-- Value a disk overlay gives an integer field: the integer its value parses to
when `key` is present with a value that parses, zero otherwise. -/
def overlayInt (m : GoMap String) (key : String) : Int :=
  match m.entries.lookup key with
  | none => 0
  | some v =>
    match Atoi v with
    | some n => n
    | none => 0

/-- Value a disk overlay gives the group name: the value stored under `key` when
`key` is present, empty otherwise. -/
def overlayString (m : GoMap String) (key : String) : String :=
  match m.entries.lookup key with
  | none => ""
  | some v => v

/-- Throttle block a disk overlay describes, field by field. -/
def diskTuneOf (m : GoMap String) : DiskIOTune where
  TotalBytesSec := overlayInt m "total_bytes_sec"
  ReadBytesSec := overlayInt m "read_bytes_sec"
  WriteBytesSec := overlayInt m "write_bytes_sec"
  TotalIopsSec := overlayInt m "total_iops_sec"
  ReadIopsSec := overlayInt m "read_iops_sec"
  WriteIopsSec := overlayInt m "write_iops_sec"
  TotalBytesSecMax := overlayInt m "total_bytes_sec_max"
  ReadBytesSecMax := overlayInt m "read_bytes_sec_max"
  WriteBytesSecMax := overlayInt m "write_bytes_sec_max"
  TotalIopsSecMax := overlayInt m "total_iops_sec_max"
  ReadIopsSecMax := overlayInt m "read_iops_sec_max"
  WriteIopsSecMax := overlayInt m "write_iops_sec_max"
  SizeIopsSec := overlayInt m "size_iops_sec"
  GroupName := overlayString m "group_name"
  TotalBytesSecMaxLen := overlayInt m "total_bytes_sec_max_length"
  ReadBytesSecMaxLen := overlayInt m "read_bytes_sec_max_length"
  WriteBytesSecMaxLen := overlayInt m "write_bytes_sec_max_length"
  TotalIopsSecMaxLen := overlayInt m "total_iops_sec_max_length"
  ReadIopsSecMaxLen := overlayInt m "read_iops_sec_max_length"
  WriteIopsSecMaxLen := overlayInt m "write_iops_sec_max_length"

/-- The case labels of the switch of `adjustDiskAttributes` that write an integer
field. -/
def intKeys : List String :=
  ["total_bytes_sec", "read_bytes_sec", "write_bytes_sec", "total_iops_sec", "read_iops_sec",
   "write_iops_sec", "total_bytes_sec_max", "read_bytes_sec_max", "write_bytes_sec_max",
   "total_iops_sec_max", "read_iops_sec_max", "write_iops_sec_max", "size_iops_sec",
   "total_bytes_sec_max_length", "read_bytes_sec_max_length",
   "write_bytes_sec_max_length", "total_iops_sec_max_length", "read_iops_sec_max_length",
   "write_iops_sec_max_length"]

/-- Integer field of a throttle block, selected by the XML tag of the field in the
struct `DiskIOTune`; zero for any other name. -/
def DiskIOTune.intField (t : DiskIOTune) (key : String) : Int :=
  if key = "total_bytes_sec" then t.TotalBytesSec
  else if key = "read_bytes_sec" then t.ReadBytesSec
  else if key = "write_bytes_sec" then t.WriteBytesSec
  else if key = "total_iops_sec" then t.TotalIopsSec
  else if key = "read_iops_sec" then t.ReadIopsSec
  else if key = "write_iops_sec" then t.WriteIopsSec
  else if key = "total_bytes_sec_max" then t.TotalBytesSecMax
  else if key = "read_bytes_sec_max" then t.ReadBytesSecMax
  else if key = "write_bytes_sec_max" then t.WriteBytesSecMax
  else if key = "total_iops_sec_max" then t.TotalIopsSecMax
  else if key = "read_iops_sec_max" then t.ReadIopsSecMax
  else if key = "write_iops_sec_max" then t.WriteIopsSecMax
  else if key = "size_iops_sec" then t.SizeIopsSec
  else if key = "total_bytes_sec_max_length" then t.TotalBytesSecMaxLen
  else if key = "read_bytes_sec_max_length" then t.ReadBytesSecMaxLen
  else if key = "write_bytes_sec_max_length" then t.WriteBytesSecMaxLen
  else if key = "total_iops_sec_max_length" then t.TotalIopsSecMaxLen
  else if key = "read_iops_sec_max_length" then t.ReadIopsSecMaxLen
  else if key = "write_iops_sec_max_length" then t.WriteIopsSecMaxLen
  else 0

/-- Throttle block a disk carries; the block of zero fields when it has none. -/
def MyDisk.tune {D : Type} (d : MyDisk D) : DiskIOTune :=
  match d.IoTune with
  | none => {}
  | some t => t

/-! ### Scenarios -/

/-- The disk overlay `{"read_bytes_sec":"10485760","read_iops_sec":"1000"}`. -/
def scenarioDiskOverlay : GoMap String where
  entries := [("read_bytes_sec", "10485760"), ("read_iops_sec", "1000")]
  nodup := by decide

/-- The overlay entry `{"inbound":{"average":"1000"}}`. -/
def scenarioEntry : MyIfaceTuneAnno where
  Inbound := some { entries := [("average", "1000")], nodup := by decide }
  Outbound := none

/-- The bandwidth overlay `{"86:5d:c0:a8:64:dd":{"inbound":{"average":"1000"}}}`. -/
def scenarioBandwidth : GoMap (Option MyIfaceTuneAnno) where
  entries := [("86:5d:c0:a8:64:dd", some scenarioEntry)]
  nodup := by decide

/-- An interface with MAC `86:5d:c0:a8:64:dd` and no bandwidth block. -/
def scenarioInterface : MyInterface Unit where
  Interface := { MAC := some { MAC := "86:5d:c0:a8:64:dd" }, rest := () }
  BandWidth := none

/-- An interface with MAC `52:54:00:00:00:01` and no bandwidth block. -/
def scenarioOtherInterface : MyInterface Unit where
  Interface := { MAC := some { MAC := "52:54:00:00:00:01" }, rest := () }
  BandWidth := none

/-- The interface of the scenario, already shaped to an inbound average of `500`. -/
def scenarioShapedInterface : MyInterface Unit where
  Interface := { MAC := some { MAC := "86:5d:c0:a8:64:dd" }, rest := () }
  BandWidth := some { Inbound := some { Average := "500" }, Outbound := none }

/-- The overlay entry `{"inbound":{"average":""}}`. -/
def scenarioEmptyValueEntry : MyIfaceTuneAnno where
  Inbound := some { entries := [("average", "")], nodup := by decide }
  Outbound := none

/-- The bandwidth overlay `{"86:5d:c0:a8:64:dd":{"inbound":{"average":""}}}`. -/
def scenarioEmptyValueBandwidth : GoMap (Option MyIfaceTuneAnno) where
  entries := [("86:5d:c0:a8:64:dd", some scenarioEmptyValueEntry)]
  nodup := by decide

/-- The disk overlay `{}`, a non-nil map without entries. -/
def scenarioEmptyOverlay : GoMap String where
  entries := []
  nodup := by decide

/-- The disk overlay `{"read_bytes_sec":"fast","read_iops_sec":"1000"}`. -/
def scenarioBadOverlay : GoMap String where
  entries := [("read_bytes_sec", "fast"), ("read_iops_sec", "1000")]
  nodup := by decide

/-- A disk that already carries a throttle block with `read_bytes_sec = 5`. -/
def scenarioThrottledDisk : MyDisk Unit where
  Disk := ()
  IoTune := some { ReadBytesSec := 5 }

/-- The case labels of the switch of `adjustDiskAttributes`. -/
def diskKeys : List String :=
  ["total_bytes_sec", "read_bytes_sec", "write_bytes_sec", "total_iops_sec", "read_iops_sec",
   "write_iops_sec", "total_bytes_sec_max", "read_bytes_sec_max", "write_bytes_sec_max",
   "total_iops_sec_max", "read_iops_sec_max", "write_iops_sec_max", "size_iops_sec",
   "group_name", "total_bytes_sec_max_length", "read_bytes_sec_max_length",
   "write_bytes_sec_max_length", "total_iops_sec_max_length", "read_iops_sec_max_length",
   "write_iops_sec_max_length"]

end Ksv

/-! ### Stand-ins for the encoding libraries -/

namespace Ksv

/-- Annotations that carry the disk key. -/
def scenarioAnnotations : GoMap String where
  entries := [("iotune.kubesphere.io/disk", "overlay")]
  nodup := by decide

/-- A stand-in for the encoding libraries: the empty descriptor does not decode, a
descriptor of one byte has no annotations, any other carries the disk key; the
empty domain description does not parse, any other has one disk per byte; a
domain of three disks or more does not encode. -/
def scenarioCodec : Codec Unit Unit Unit where
  jsonUnmarshalVmi := fun b =>
    match b with
    | [] => .error { msg := "unexpected end of JSON input" }
    | [_] => .ok { Annotations := none }
    | _ => .ok { Annotations := some scenarioAnnotations }
  jsonUnmarshalIoTune := fun _ => .ok (some scenarioDiskOverlay)
  jsonUnmarshalIfTune := fun _ => .ok none
  jsonUnmarshalCloudInit := fun b =>
    match b with
    | [] => .error { msg := "unexpected end of JSON input" }
    | _ => .ok ()
  xmlUnmarshal := fun x =>
    match x with
    | [] => .error { msg := "EOF" }
    | _ =>
      .ok { DomainSpec := (),
            Devices := { Devices := (), Disks := x.map (fun _ => { Disk := (), IoTune := none }) } }
  xmlMarshal := fun spec =>
    if spec.Devices.Disks.length < 3 then
      .ok (spec.Devices.Disks.map (fun d => if d.IoTune.isSome then 1 else 0))
    else .error { msg := "unsupported" }

end Ksv

namespace Usb

/-- A stand-in for the encoding libraries of the USB hook: the empty descriptor
does not decode and any other has no annotations; no domain description parses or
encodes. -/
def scenarioCodec : Codec Unit Unit Unit Unit where
  jsonUnmarshalVmi := fun b =>
    match b with
    | [] => .error { msg := "unexpected end of JSON input" }
    | _ => .ok { Annotations := none }
  xmlUnmarshal := fun _ => .error { msg := "EOF" }
  xmlMarshal := fun _ => .error { msg := "unsupported" }

end Usb

/-! ### Vocabulary and scenarios of the USB hook and of the adapters -/

namespace Usb

/-- Controller model a set of annotations asks for: the value under
`host.usb.vm.kubevirt.io/controller` when the key is present with a non-empty
value, `piix3-uhci` otherwise. -/
def controllerModelOf (annotations : Option (GoMap String)) : String :=
  match mapIndex annotations hostUsbControllerAnnotation with
  | none => "piix3-uhci"
  | some model => if model = "" then "piix3-uhci" else model

/-- The controller of type `usb`, of the given model and of index `0`, every other
field at its zero value. -/
def usbController {C : Type} [Inhabited C] (model : String) : Controller C where
  Type_ := "usb"
  Model := model
  Index := "0"
  rest := default

/-- The host device of mode `subsystem`, type `usb`, managed `yes`, with the given
vendor and product ids and the address of type `usb`, bus `0`, port `1`, every
other field at its zero value. -/
def usbHostDevice {H : Type} [Inhabited H] (vendor product : String) : HostDevice H where
  Mode := "subsystem"
  Type_ := "usb"
  Managed := "yes"
  Source := { Vendor := { Id := vendor }, Product := { Id := product } }
  Address := some { Type_ := "usb", Bus := "0", Port := "1" }
  rest := default

/-- Annotations that carry the device key with the given value. -/
def scenarioDeviceAnnotations (device : String) : GoMap String where
  entries := [("host.usb.vm.kubevirt.io/device", device)]
  nodup := by simp

/-- A stand-in for the encoding libraries of the USB hook, for a descriptor with
the given annotations: the empty descriptor does not decode; the empty domain
description does not parse, any other has one controller per byte and no host
device; a domain of three controllers or more does not encode. -/
def scenarioDeviceCodec (annotations : Option (GoMap String)) : Codec Unit Unit Unit Unit where
  jsonUnmarshalVmi := fun b =>
    match b with
    | [] => .error { msg := "unexpected end of JSON input" }
    | _ => .ok { Annotations := annotations }
  xmlUnmarshal := fun x =>
    match x with
    | [] => .error { msg := "EOF" }
    | _ =>
      .ok { Devices :=
              { Controllers := x.map (fun _ => { Type_ := "pci", Model := "pcie-root",
                                                 Index := "0", rest := () }),
                HostDevices := [],
                rest := () },
            rest := () }
  xmlMarshal := fun spec =>
    if spec.Devices.Controllers.length < 3 then
      .ok (spec.Devices.Controllers.map (fun _ => 1) ++ spec.Devices.HostDevices.map (fun _ => 2))
    else .error { msg := "unsupported" }

end Usb

namespace Ksv

/-- A workload descriptor whose only annotation is the bandwidth key. -/
def scenarioBandwidthOnlyVmi : VirtualMachineInstance where
  Annotations := some
    { entries := [("ifacetune.kubesphere.io/bandwidth", "overlay")], nodup := by decide }

/-- A bandwidth overlay with an entry under the empty string. -/
def scenarioEmptyKeyBandwidth : GoMap (Option MyIfaceTuneAnno) where
  entries := [("", some scenarioEntry)]
  nodup := by decide

/-- An interface without a MAC element. -/
def scenarioNoMacInterface : MyInterface Unit where
  Interface := { MAC := none, rest := () }
  BandWidth := none

/-- An interface whose MAC element has the empty address. -/
def scenarioEmptyMacInterface : MyInterface Unit where
  Interface := { MAC := some { MAC := "" }, rest := () }
  BandWidth := none

/-- Annotations that carry the disk key with the empty value. -/
def scenarioEmptyDiskAnnotations : GoMap String where
  entries := [("iotune.kubesphere.io/disk", "")]
  nodup := by decide

/-- A stand-in for the encoding libraries in which no annotation value decodes. -/
def scenarioFailingCodec : Codec Unit Unit Unit where
  jsonUnmarshalVmi := fun _ => .ok { Annotations := some scenarioAnnotations }
  jsonUnmarshalIoTune := fun _ => .error { msg := "invalid character" }
  jsonUnmarshalIfTune := fun _ => .error { msg := "invalid character" }
  jsonUnmarshalCloudInit := fun _ => .error { msg := "invalid character" }
  xmlUnmarshal := fun _ => .error { msg := "EOF" }
  xmlMarshal := fun _ => .error { msg := "unsupported" }

end Ksv

/-! ### Scenarios of the iteration order and of entries that set no field -/

namespace Ksv

/-- The disk overlay of the scenario, its entries visited in the other order. -/
def scenarioDiskOverlayReversed : GoMap String where
  entries := [("read_iops_sec", "1000"), ("read_bytes_sec", "10485760")]
  nodup := by decide

/-- The overlay entry with the inbound map `{"peak":"2000","average":"1000"}`. -/
def scenarioTwoFieldEntry : MyIfaceTuneAnno where
  Inbound := some { entries := [("peak", "2000"), ("average", "1000")], nodup := by decide }
  Outbound := none

/-- The entry of `scenarioTwoFieldEntry`, its inbound entries visited in the other
order. -/
def scenarioTwoFieldEntryReversed : MyIfaceTuneAnno where
  Inbound := some { entries := [("average", "1000"), ("peak", "2000")], nodup := by decide }
  Outbound := none

/-- The overlay entry `{}`: neither an inbound nor an outbound map. -/
def scenarioBlankEntry : MyIfaceTuneAnno where
  Inbound := none
  Outbound := none

/-- The overlay entry `{"outbound":{"floor":"5"}}`, whose only outbound key is not
one the outbound switch knows. -/
def scenarioFloorEntry : MyIfaceTuneAnno where
  Inbound := none
  Outbound := some { entries := [("floor", "5")], nodup := by decide }

/-- A bandwidth overlay with the given entry under `86:5d:c0:a8:64:dd`. -/
def scenarioBandwidthOf (e : MyIfaceTuneAnno) : GoMap (Option MyIfaceTuneAnno) where
  entries := [("86:5d:c0:a8:64:dd", some e)]
  nodup := by simp

/-- Inbound record an interface holds before the merge, `none` when it has no
bandwidth block or the block has no inbound record. -/
def MyInterface.inboundRecord {R : Type} (i : MyInterface R) : Option Inbound :=
  match i.BandWidth with
  | none => none
  | some bw => bw.Inbound

/-- Outbound record an interface holds before the merge, `none` when it has no
bandwidth block or the block has no outbound record. -/
def MyInterface.outboundRecord {R : Type} (i : MyInterface R) : Option Outbound :=
  match i.BandWidth with
  | none => none
  | some bw => bw.Outbound

end Ksv

/-! ## Range loops over a map -/

/-- A loop over a map whose body changes a component of the state only at one key
leaves in that component what the entry under that key writes, and the initial
value when the key is absent. -/
theorem foldl_component {S V A : Type} (step : S → String → V → S) (proj : S → A)
    (key : String) (u : V → A → A)
    (h1 : ∀ s v, proj (step s key v) = u v (proj s))
    (h2 : ∀ s k v, k ≠ key → proj (step s k v) = proj s) :
    ∀ (l : List (String × V)), (l.map Prod.fst).Nodup → ∀ s,
      proj (l.foldl (fun s kv => step s kv.1 kv.2) s) =
        match l.lookup key with
        | some v => u v (proj s)
        | none => proj s := by
  intro l
  induction l with
  | nil => intro _ s; simp
  | cons kv rest ih =>
    intro hnd s
    obtain ⟨k, v⟩ := kv
    simp only [List.map_cons, List.nodup_cons] at hnd
    obtain ⟨hk, hrest⟩ := hnd
    simp only [List.foldl_cons]
    rw [ih hrest]
    by_cases hkey : k = key
    · subst hkey
      have hnone : rest.lookup k = none := by
        rw [List.lookup_eq_none_iff]
        intro p hp
        simp only [bne_iff_ne, ne_eq]
        intro hpk
        exact hk (List.mem_map.mpr ⟨p, hp, hpk.symm⟩)
      simp [hnone, List.lookup_cons, h1]
    · have hne : (key == k) = false := by
        simp only [beq_eq_false_iff_ne, ne_eq]
        exact fun h => hkey h.symm
      simp [List.lookup_cons, hne, h2 s k v hkey]

theorem mapRange_nodup {V : Type} (m : Option (GoMap V)) :
    ((mapRange m).map Prod.fst).Nodup := by
  cases m with
  | none => simp [mapRange]
  | some t => exact t.nodup

theorem lookup_mapRange {V : Type} (m : Option (GoMap V)) (k : String) :
    (mapRange m).lookup k = mapIndex m k := by
  cases m <;> simp [mapRange, mapIndex]

namespace Ksv

/-! ## The interface merge -/

theorem foldl_inboundStep_some (l : List (String × String)) (ib : Inbound) :
    l.foldl inboundStep (some ib) =
      some (l.foldl (fun s kv => inboundSwitch s kv.1 kv.2) ib) := by
  induction l generalizing ib with
  | nil => rfl
  | cons kv rest ih => simp only [List.foldl_cons, inboundStep, ih]

theorem foldl_outboundStep_some (l : List (String × String)) (ob : Outbound) :
    l.foldl outboundStep (some ob) =
      some (l.foldl (fun s kv => outboundSwitch s kv.1 kv.2) ob) := by
  induction l generalizing ob with
  | nil => rfl
  | cons kv rest ih => simp only [List.foldl_cons, outboundStep, ih]

/-- The inbound loop creates the record exactly when it has an entry to visit. -/
theorem foldl_inboundStep (l : List (String × String)) (cur : Option Inbound) :
    l.foldl inboundStep cur =
      if l = [] then cur
      else some (l.foldl (fun s kv => inboundSwitch s kv.1 kv.2) (cur.getD {})) := by
  cases l with
  | nil => simp
  | cons kv rest =>
    cases cur <;> simp [List.foldl_cons, inboundStep, foldl_inboundStep_some]

theorem foldl_outboundStep (l : List (String × String)) (cur : Option Outbound) :
    l.foldl outboundStep cur =
      if l = [] then cur
      else some (l.foldl (fun s kv => outboundSwitch s kv.1 kv.2) (cur.getD {})) := by
  cases l with
  | nil => simp
  | cons kv rest =>
    cases cur <;> simp [List.foldl_cons, outboundStep, foldl_outboundStep_some]

theorem getD_foldl_inboundStep (l : List (String × String)) (cur : Option Inbound) :
    (l.foldl inboundStep cur).getD {} =
      l.foldl (fun s kv => inboundSwitch s kv.1 kv.2) (cur.getD {}) := by
  rw [foldl_inboundStep]
  split
  · next h => subst h; simp
  · simp

theorem getD_foldl_outboundStep (l : List (String × String)) (cur : Option Outbound) :
    (l.foldl outboundStep cur).getD {} =
      l.foldl (fun s kv => outboundSwitch s kv.1 kv.2) (cur.getD {}) := by
  rw [foldl_outboundStep]
  split
  · next h => subst h; simp
  · simp

/-- What `adjustInterfaceAttributes` does once the MAC is matched. -/
theorem adjustInterfaceAttributes_matched {R : Type}
    (o : Option (GoMap (Option MyIfaceTuneAnno))) (i : MyInterface R) (mac : MAC)
    (e : MyIfaceTuneAnno) (hmac : i.Interface.MAC = some mac) (hne : mac.MAC ≠ "")
    (he : mapGet o mac.MAC = some e) :
    adjustInterfaceAttributes o i =
      { Interface := i.Interface,
        BandWidth := some
          { Inbound := (mapRange e.Inbound).foldl inboundStep
              (match i.BandWidth with
                | none => none
                | some bw => bw.Inbound),
            Outbound := (mapRange e.Outbound).foldl outboundStep
              (match i.BandWidth with
                | none => none
                | some bw => bw.Outbound) } } := by
  unfold adjustInterfaceAttributes
  simp only [hmac, hne, he, if_false]
  cases i.BandWidth <;> rfl

theorem inbound_getD {R : Type} (i : MyInterface R) :
    i.inbound =
      (match i.BandWidth with
        | none => none
        | some bw => bw.Inbound).getD {} := by
  unfold MyInterface.inbound
  cases i.BandWidth with
  | none => rfl
  | some bw =>
    obtain ⟨ib, ob⟩ := bw
    cases ib <;> rfl

theorem outbound_getD {R : Type} (i : MyInterface R) :
    i.outbound =
      (match i.BandWidth with
        | none => none
        | some bw => bw.Outbound).getD {} := by
  unfold MyInterface.outbound
  cases i.BandWidth with
  | none => rfl
  | some bw =>
    obtain ⟨ib, ob⟩ := bw
    cases ob <;> rfl

/-- The inbound record after a matched merge is the prior record run through the
switch once for every inbound entry. -/
theorem inbound_adjust {R : Type}
    (o : Option (GoMap (Option MyIfaceTuneAnno))) (i : MyInterface R) (mac : MAC)
    (e : MyIfaceTuneAnno) (hmac : i.Interface.MAC = some mac) (hne : mac.MAC ≠ "")
    (he : mapGet o mac.MAC = some e) :
    (adjustInterfaceAttributes o i).inbound =
      (mapRange e.Inbound).foldl (fun s kv => inboundSwitch s kv.1 kv.2) i.inbound := by
  rw [adjustInterfaceAttributes_matched o i mac e hmac hne he, inbound_getD i,
    ← getD_foldl_inboundStep]
  simp only [MyInterface.inbound]
  cases List.foldl inboundStep _ (mapRange e.Inbound) <;> rfl

theorem outbound_adjust {R : Type}
    (o : Option (GoMap (Option MyIfaceTuneAnno))) (i : MyInterface R) (mac : MAC)
    (e : MyIfaceTuneAnno) (hmac : i.Interface.MAC = some mac) (hne : mac.MAC ≠ "")
    (he : mapGet o mac.MAC = some e) :
    (adjustInterfaceAttributes o i).outbound =
      (mapRange e.Outbound).foldl (fun s kv => outboundSwitch s kv.1 kv.2) i.outbound := by
  rw [adjustInterfaceAttributes_matched o i mac e hmac hne he, outbound_getD i,
    ← getD_foldl_outboundStep]
  simp only [MyInterface.outbound]
  cases List.foldl outboundStep _ (mapRange e.Outbound) <;> rfl

/-- A field of the inbound record after the inbound loop. -/
theorem foldl_inboundSwitch_field (m : Option (GoMap String)) (ib : Inbound) :
    let r := (mapRange m).foldl (fun s kv => inboundSwitch s kv.1 kv.2) ib
    r.Average = overlayField m "average" ib.Average ∧
    r.Peak = overlayField m "peak" ib.Peak ∧
    r.Burst = overlayField m "burst" ib.Burst ∧
    r.Floor = overlayField m "floor" ib.Floor := by
  have hnd := mapRange_nodup m
  refine ⟨?_, ?_, ?_, ?_⟩
  · rw [foldl_component inboundSwitch Inbound.Average "average" (fun v _ => v)
      (by intro s v; simp [inboundSwitch])
      (by intro s k v hk; unfold inboundSwitch; split_ifs <;> simp_all) _ hnd,
      lookup_mapRange]
    unfold overlayField
    cases mapIndex m _ <;> rfl
  · rw [foldl_component inboundSwitch Inbound.Peak "peak" (fun v _ => v)
      (by intro s v; simp [inboundSwitch])
      (by intro s k v hk; unfold inboundSwitch; split_ifs <;> simp_all) _ hnd,
      lookup_mapRange]
    unfold overlayField
    cases mapIndex m _ <;> rfl
  · rw [foldl_component inboundSwitch Inbound.Burst "burst" (fun v _ => v)
      (by intro s v; simp [inboundSwitch])
      (by intro s k v hk; unfold inboundSwitch; split_ifs <;> simp_all) _ hnd,
      lookup_mapRange]
    unfold overlayField
    cases mapIndex m _ <;> rfl
  · rw [foldl_component inboundSwitch Inbound.Floor "floor" (fun v _ => v)
      (by intro s v; simp [inboundSwitch])
      (by intro s k v hk; unfold inboundSwitch; split_ifs <;> simp_all) _ hnd,
      lookup_mapRange]
    unfold overlayField
    cases mapIndex m _ <;> rfl

/-- A field of the outbound record after the outbound loop. -/
theorem foldl_outboundSwitch_field (m : Option (GoMap String)) (ob : Outbound) :
    let r := (mapRange m).foldl (fun s kv => outboundSwitch s kv.1 kv.2) ob
    r.Average = overlayField m "average" ob.Average ∧
    r.Peak = overlayField m "peak" ob.Peak ∧
    r.Burst = overlayField m "burst" ob.Burst := by
  have hnd := mapRange_nodup m
  refine ⟨?_, ?_, ?_⟩
  · rw [foldl_component outboundSwitch Outbound.Average "average" (fun v _ => v)
      (by intro s v; simp [outboundSwitch])
      (by intro s k v hk; unfold outboundSwitch; split_ifs <;> simp_all) _ hnd,
      lookup_mapRange]
    unfold overlayField
    cases mapIndex m _ <;> rfl
  · rw [foldl_component outboundSwitch Outbound.Peak "peak" (fun v _ => v)
      (by intro s v; simp [outboundSwitch])
      (by intro s k v hk; unfold outboundSwitch; split_ifs <;> simp_all) _ hnd,
      lookup_mapRange]
    unfold overlayField
    cases mapIndex m _ <;> rfl
  · rw [foldl_component outboundSwitch Outbound.Burst "burst" (fun v _ => v)
      (by intro s v; simp [outboundSwitch])
      (by intro s k v hk; unfold outboundSwitch; split_ifs <;> simp_all) _ hnd,
      lookup_mapRange]
    unfold overlayField
    cases mapIndex m _ <;> rfl

end Ksv

namespace Ksv

/-! ## The disk merge -/

theorem Atoi_empty : Atoi "" = none := by decide

theorem updateToInt_zero (v : String) :
    updateToInt v 0 =
      match Atoi v with
      | some n => n
      | none => 0 := by
  unfold updateToInt
  by_cases h : v = ""
  · subst h; simp [Atoi_empty]
  · simp [h]

/-- The switch of the disk loop, field by field: a field changes only under its own
key. -/
theorem diskSwitch_fieldwise (t : DiskIOTune) (k v : String) :
    diskSwitch t k v =
      {
        TotalBytesSec := if k = "total_bytes_sec" then updateToInt v t.TotalBytesSec else t.TotalBytesSec,
        ReadBytesSec := if k = "read_bytes_sec" then updateToInt v t.ReadBytesSec else t.ReadBytesSec,
        WriteBytesSec := if k = "write_bytes_sec" then updateToInt v t.WriteBytesSec else t.WriteBytesSec,
        TotalIopsSec := if k = "total_iops_sec" then updateToInt v t.TotalIopsSec else t.TotalIopsSec,
        ReadIopsSec := if k = "read_iops_sec" then updateToInt v t.ReadIopsSec else t.ReadIopsSec,
        WriteIopsSec := if k = "write_iops_sec" then updateToInt v t.WriteIopsSec else t.WriteIopsSec,
        TotalBytesSecMax := if k = "total_bytes_sec_max" then updateToInt v t.TotalBytesSecMax else t.TotalBytesSecMax,
        ReadBytesSecMax := if k = "read_bytes_sec_max" then updateToInt v t.ReadBytesSecMax else t.ReadBytesSecMax,
        WriteBytesSecMax := if k = "write_bytes_sec_max" then updateToInt v t.WriteBytesSecMax else t.WriteBytesSecMax,
        TotalIopsSecMax := if k = "total_iops_sec_max" then updateToInt v t.TotalIopsSecMax else t.TotalIopsSecMax,
        ReadIopsSecMax := if k = "read_iops_sec_max" then updateToInt v t.ReadIopsSecMax else t.ReadIopsSecMax,
        WriteIopsSecMax := if k = "write_iops_sec_max" then updateToInt v t.WriteIopsSecMax else t.WriteIopsSecMax,
        SizeIopsSec := if k = "size_iops_sec" then updateToInt v t.SizeIopsSec else t.SizeIopsSec,
        GroupName := if k = "group_name" then updateToString v t.GroupName else t.GroupName,
        TotalBytesSecMaxLen := if k = "total_bytes_sec_max_length" then updateToInt v t.TotalBytesSecMaxLen else t.TotalBytesSecMaxLen,
        ReadBytesSecMaxLen := if k = "read_bytes_sec_max_length" then updateToInt v t.ReadBytesSecMaxLen else t.ReadBytesSecMaxLen,
        WriteBytesSecMaxLen := if k = "write_bytes_sec_max_length" then updateToInt v t.WriteBytesSecMaxLen else t.WriteBytesSecMaxLen,
        TotalIopsSecMaxLen := if k = "total_iops_sec_max_length" then updateToInt v t.TotalIopsSecMaxLen else t.TotalIopsSecMaxLen,
        ReadIopsSecMaxLen := if k = "read_iops_sec_max_length" then updateToInt v t.ReadIopsSecMaxLen else t.ReadIopsSecMaxLen,
        WriteIopsSecMaxLen := if k = "write_iops_sec_max_length" then updateToInt v t.WriteIopsSecMaxLen else t.WriteIopsSecMaxLen } := by
  unfold diskSwitch
  by_cases h0 : k = "total_bytes_sec"
  · subst h0; rfl
  rw [if_neg h0]
  by_cases h1 : k = "read_bytes_sec"
  · subst h1; rfl
  rw [if_neg h1]
  by_cases h2 : k = "write_bytes_sec"
  · subst h2; rfl
  rw [if_neg h2]
  by_cases h3 : k = "total_iops_sec"
  · subst h3; rfl
  rw [if_neg h3]
  by_cases h4 : k = "read_iops_sec"
  · subst h4; rfl
  rw [if_neg h4]
  by_cases h5 : k = "write_iops_sec"
  · subst h5; rfl
  rw [if_neg h5]
  by_cases h6 : k = "total_bytes_sec_max"
  · subst h6; rfl
  rw [if_neg h6]
  by_cases h7 : k = "read_bytes_sec_max"
  · subst h7; rfl
  rw [if_neg h7]
  by_cases h8 : k = "write_bytes_sec_max"
  · subst h8; rfl
  rw [if_neg h8]
  by_cases h9 : k = "total_iops_sec_max"
  · subst h9; rfl
  rw [if_neg h9]
  by_cases h10 : k = "read_iops_sec_max"
  · subst h10; rfl
  rw [if_neg h10]
  by_cases h11 : k = "write_iops_sec_max"
  · subst h11; rfl
  rw [if_neg h11]
  by_cases h12 : k = "size_iops_sec"
  · subst h12; rfl
  rw [if_neg h12]
  by_cases h13 : k = "group_name"
  · subst h13; rfl
  rw [if_neg h13]
  by_cases h14 : k = "total_bytes_sec_max_length"
  · subst h14; rfl
  rw [if_neg h14]
  by_cases h15 : k = "read_bytes_sec_max_length"
  · subst h15; rfl
  rw [if_neg h15]
  by_cases h16 : k = "write_bytes_sec_max_length"
  · subst h16; rfl
  rw [if_neg h16]
  by_cases h17 : k = "total_iops_sec_max_length"
  · subst h17; rfl
  rw [if_neg h17]
  by_cases h18 : k = "read_iops_sec_max_length"
  · subst h18; rfl
  rw [if_neg h18]
  by_cases h19 : k = "write_iops_sec_max_length"
  · subst h19; rfl
  rw [if_neg h19]
  simp only [h0, h1, h2, h3, h4, h5, h6, h7, h8, h9, h10, h11, h12, h13, h14, h15, h16, h17, h18, h19, if_false]

/-- An integer field of the block the disk loop builds, for a field the switch
writes under `key` only. -/
theorem foldl_diskStep_int (proj : DiskIOTune → Int) (key : String)
    (h1 : ∀ s v, proj (diskSwitch s key v) = updateToInt v (proj s))
    (h2 : ∀ s k v, k ≠ key → proj (diskSwitch s k v) = proj s)
    (h0 : proj {} = 0) (m : GoMap String) :
    proj (m.entries.foldl diskStep {}) = overlayInt m key := by
  have h := foldl_component diskSwitch proj key updateToInt h1 h2 m.entries m.nodup {}
  have hstep : diskStep = fun s kv => diskSwitch s kv.1 kv.2 := rfl
  rw [hstep, h, h0]
  unfold overlayInt
  cases m.entries.lookup key with
  | none => rfl
  | some v => exact updateToInt_zero v

/-- The group name of the block the disk loop builds. -/
theorem foldl_diskStep_groupName (m : GoMap String) :
    (m.entries.foldl diskStep {}).GroupName = overlayString m "group_name" := by
  have h := foldl_component diskSwitch DiskIOTune.GroupName "group_name" updateToString
    (by intro s v; rw [diskSwitch_fieldwise]; rfl)
    (by intro s k v hk; rw [diskSwitch_fieldwise]; show ite _ _ _ = _; exact if_neg hk) m.entries m.nodup {}
  have hstep : diskStep = fun s kv => diskSwitch s kv.1 kv.2 := rfl
  rw [hstep, h]
  unfold overlayString
  cases m.entries.lookup "group_name" with
  | none => rfl
  | some v =>
    show updateToString v "" = v
    unfold updateToString
    split_ifs with hv
    · exact hv.symm
    · rfl

/-- The disk loop builds the block the overlay describes. -/
theorem foldl_diskStep (m : GoMap String) :
    m.entries.foldl diskStep {} = diskTuneOf m := by
  apply DiskIOTune.ext
  · exact foldl_diskStep_int DiskIOTune.TotalBytesSec "total_bytes_sec"
      (by intro s v; rw [diskSwitch_fieldwise]; rfl)
      (by intro s k v hk; rw [diskSwitch_fieldwise]; show ite _ _ _ = _; exact if_neg hk) rfl m
  · exact foldl_diskStep_int DiskIOTune.ReadBytesSec "read_bytes_sec"
      (by intro s v; rw [diskSwitch_fieldwise]; rfl)
      (by intro s k v hk; rw [diskSwitch_fieldwise]; show ite _ _ _ = _; exact if_neg hk) rfl m
  · exact foldl_diskStep_int DiskIOTune.WriteBytesSec "write_bytes_sec"
      (by intro s v; rw [diskSwitch_fieldwise]; rfl)
      (by intro s k v hk; rw [diskSwitch_fieldwise]; show ite _ _ _ = _; exact if_neg hk) rfl m
  · exact foldl_diskStep_int DiskIOTune.TotalIopsSec "total_iops_sec"
      (by intro s v; rw [diskSwitch_fieldwise]; rfl)
      (by intro s k v hk; rw [diskSwitch_fieldwise]; show ite _ _ _ = _; exact if_neg hk) rfl m
  · exact foldl_diskStep_int DiskIOTune.ReadIopsSec "read_iops_sec"
      (by intro s v; rw [diskSwitch_fieldwise]; rfl)
      (by intro s k v hk; rw [diskSwitch_fieldwise]; show ite _ _ _ = _; exact if_neg hk) rfl m
  · exact foldl_diskStep_int DiskIOTune.WriteIopsSec "write_iops_sec"
      (by intro s v; rw [diskSwitch_fieldwise]; rfl)
      (by intro s k v hk; rw [diskSwitch_fieldwise]; show ite _ _ _ = _; exact if_neg hk) rfl m
  · exact foldl_diskStep_int DiskIOTune.TotalBytesSecMax "total_bytes_sec_max"
      (by intro s v; rw [diskSwitch_fieldwise]; rfl)
      (by intro s k v hk; rw [diskSwitch_fieldwise]; show ite _ _ _ = _; exact if_neg hk) rfl m
  · exact foldl_diskStep_int DiskIOTune.ReadBytesSecMax "read_bytes_sec_max"
      (by intro s v; rw [diskSwitch_fieldwise]; rfl)
      (by intro s k v hk; rw [diskSwitch_fieldwise]; show ite _ _ _ = _; exact if_neg hk) rfl m
  · exact foldl_diskStep_int DiskIOTune.WriteBytesSecMax "write_bytes_sec_max"
      (by intro s v; rw [diskSwitch_fieldwise]; rfl)
      (by intro s k v hk; rw [diskSwitch_fieldwise]; show ite _ _ _ = _; exact if_neg hk) rfl m
  · exact foldl_diskStep_int DiskIOTune.TotalIopsSecMax "total_iops_sec_max"
      (by intro s v; rw [diskSwitch_fieldwise]; rfl)
      (by intro s k v hk; rw [diskSwitch_fieldwise]; show ite _ _ _ = _; exact if_neg hk) rfl m
  · exact foldl_diskStep_int DiskIOTune.ReadIopsSecMax "read_iops_sec_max"
      (by intro s v; rw [diskSwitch_fieldwise]; rfl)
      (by intro s k v hk; rw [diskSwitch_fieldwise]; show ite _ _ _ = _; exact if_neg hk) rfl m
  · exact foldl_diskStep_int DiskIOTune.WriteIopsSecMax "write_iops_sec_max"
      (by intro s v; rw [diskSwitch_fieldwise]; rfl)
      (by intro s k v hk; rw [diskSwitch_fieldwise]; show ite _ _ _ = _; exact if_neg hk) rfl m
  · exact foldl_diskStep_int DiskIOTune.SizeIopsSec "size_iops_sec"
      (by intro s v; rw [diskSwitch_fieldwise]; rfl)
      (by intro s k v hk; rw [diskSwitch_fieldwise]; show ite _ _ _ = _; exact if_neg hk) rfl m
  · exact foldl_diskStep_groupName m
  · exact foldl_diskStep_int DiskIOTune.TotalBytesSecMaxLen "total_bytes_sec_max_length"
      (by intro s v; rw [diskSwitch_fieldwise]; rfl)
      (by intro s k v hk; rw [diskSwitch_fieldwise]; show ite _ _ _ = _; exact if_neg hk) rfl m
  · exact foldl_diskStep_int DiskIOTune.ReadBytesSecMaxLen "read_bytes_sec_max_length"
      (by intro s v; rw [diskSwitch_fieldwise]; rfl)
      (by intro s k v hk; rw [diskSwitch_fieldwise]; show ite _ _ _ = _; exact if_neg hk) rfl m
  · exact foldl_diskStep_int DiskIOTune.WriteBytesSecMaxLen "write_bytes_sec_max_length"
      (by intro s v; rw [diskSwitch_fieldwise]; rfl)
      (by intro s k v hk; rw [diskSwitch_fieldwise]; show ite _ _ _ = _; exact if_neg hk) rfl m
  · exact foldl_diskStep_int DiskIOTune.TotalIopsSecMaxLen "total_iops_sec_max_length"
      (by intro s v; rw [diskSwitch_fieldwise]; rfl)
      (by intro s k v hk; rw [diskSwitch_fieldwise]; show ite _ _ _ = _; exact if_neg hk) rfl m
  · exact foldl_diskStep_int DiskIOTune.ReadIopsSecMaxLen "read_iops_sec_max_length"
      (by intro s v; rw [diskSwitch_fieldwise]; rfl)
      (by intro s k v hk; rw [diskSwitch_fieldwise]; show ite _ _ _ = _; exact if_neg hk) rfl m
  · exact foldl_diskStep_int DiskIOTune.WriteIopsSecMaxLen "write_iops_sec_max_length"
      (by intro s v; rw [diskSwitch_fieldwise]; rfl)
      (by intro s k v hk; rw [diskSwitch_fieldwise]; show ite _ _ _ = _; exact if_neg hk) rfl m

end Ksv

namespace Ksv

/-! ## Unmatched interfaces and repeated merges -/

/-- An interface the overlay has no entry for is returned as it is. -/
theorem adjustInterfaceAttributes_unmatched {R : Type}
    (o : Option (GoMap (Option MyIfaceTuneAnno))) (i : MyInterface R)
    (h : ∀ mac, i.Interface.MAC = some mac → mac.MAC ≠ "" → mapGet o mac.MAC = none) :
    adjustInterfaceAttributes o i = i := by
  unfold adjustInterfaceAttributes
  cases hm : i.Interface.MAC with
  | none => rfl
  | some mac =>
    by_cases hne : mac.MAC = ""
    · simp [hne]
    · simp [hne, h mac hm hne]

/-- The merge reads the overlay at the MAC of the interface only. -/
theorem adjustInterfaceAttributes_congr {R : Type}
    (o1 o2 : Option (GoMap (Option MyIfaceTuneAnno))) (i : MyInterface R)
    (h : ∀ mac, i.Interface.MAC = some mac → mapGet o1 mac.MAC = mapGet o2 mac.MAC) :
    adjustInterfaceAttributes o1 i = adjustInterfaceAttributes o2 i := by
  unfold adjustInterfaceAttributes
  cases hm : i.Interface.MAC with
  | none => rfl
  | some mac => simp only [h mac hm]

theorem overlayField_idem (m : Option (GoMap String)) (key prior : String) :
    overlayField m key (overlayField m key prior) = overlayField m key prior := by
  unfold overlayField
  cases mapIndex m key <;> rfl

theorem foldl_inboundSwitch_idem (m : Option (GoMap String)) (ib : Inbound) :
    (mapRange m).foldl (fun s kv => inboundSwitch s kv.1 kv.2)
        ((mapRange m).foldl (fun s kv => inboundSwitch s kv.1 kv.2) ib) =
      (mapRange m).foldl (fun s kv => inboundSwitch s kv.1 kv.2) ib := by
  have h1 := foldl_inboundSwitch_field m ib
  have h2 := foldl_inboundSwitch_field m
    ((mapRange m).foldl (fun s kv => inboundSwitch s kv.1 kv.2) ib)
  simp only at h1 h2
  apply Inbound.ext
  · rw [h2.1, h1.1, overlayField_idem]
  · rw [h2.2.1, h1.2.1, overlayField_idem]
  · rw [h2.2.2.1, h1.2.2.1, overlayField_idem]
  · rw [h2.2.2.2, h1.2.2.2, overlayField_idem]

theorem foldl_outboundSwitch_idem (m : Option (GoMap String)) (ob : Outbound) :
    (mapRange m).foldl (fun s kv => outboundSwitch s kv.1 kv.2)
        ((mapRange m).foldl (fun s kv => outboundSwitch s kv.1 kv.2) ob) =
      (mapRange m).foldl (fun s kv => outboundSwitch s kv.1 kv.2) ob := by
  have h1 := foldl_outboundSwitch_field m ob
  have h2 := foldl_outboundSwitch_field m
    ((mapRange m).foldl (fun s kv => outboundSwitch s kv.1 kv.2) ob)
  simp only at h1 h2
  apply Outbound.ext
  · rw [h2.1, h1.1, overlayField_idem]
  · rw [h2.2.1, h1.2.1, overlayField_idem]
  · rw [h2.2.2, h1.2.2, overlayField_idem]

/-- Running the inbound loop a second time changes nothing. -/
theorem foldl_inboundStep_idem (m : Option (GoMap String)) (cur : Option Inbound) :
    (mapRange m).foldl inboundStep ((mapRange m).foldl inboundStep cur) =
      (mapRange m).foldl inboundStep cur := by
  by_cases hl : mapRange m = []
  · simp [hl]
  · rw [foldl_inboundStep (mapRange m) cur, if_neg hl, foldl_inboundStep_some,
      foldl_inboundSwitch_idem]

/-- Running the outbound loop a second time changes nothing. -/
theorem foldl_outboundStep_idem (m : Option (GoMap String)) (cur : Option Outbound) :
    (mapRange m).foldl outboundStep ((mapRange m).foldl outboundStep cur) =
      (mapRange m).foldl outboundStep cur := by
  by_cases hl : mapRange m = []
  · simp [hl]
  · rw [foldl_outboundStep (mapRange m) cur, if_neg hl, foldl_outboundStep_some,
      foldl_outboundSwitch_idem]

theorem lookup_filter_ne {V : Type} (l : List (String × V)) (k k2 : String) (h : k2 ≠ k) :
    (l.filter (fun p => p.1 != k)).lookup k2 = l.lookup k2 := by
  induction l with
  | nil => rfl
  | cons p rest ih =>
    obtain ⟨a, b⟩ := p
    by_cases ha : a = k
    · subst ha
      have h1 : (k2 == a) = false := by simpa using h
      simp [List.filter_cons, List.lookup_cons, h1, ih]
    · have h1 : (a != k) = true := by simpa using ha
      simp only [List.filter_cons, h1, if_true, List.lookup_cons, ih]

theorem mapGet_delete_ne {V : Type} [Inhabited V] (m : GoMap V) (k k2 : String) (h : k2 ≠ k) :
    mapGet (some (m.delete k)) k2 = mapGet (some m) k2 := by
  simp only [mapGet, mapIndex, GoMap.delete, lookup_filter_ne _ _ _ h]

theorem mapGet_set_ne {V : Type} [Inhabited V] (m : GoMap V) (k k2 : String) (v : V)
    (h : k2 ≠ k) :
    mapGet (some (m.set k v)) k2 = mapGet (some m) k2 := by
  have h1 : (k2 == k) = false := by simpa using h
  simp only [mapGet, mapIndex, GoMap.set, GoMap.delete, List.lookup_cons, h1,
    lookup_filter_ne _ _ _ h]

end Ksv

namespace Ksv

/-! ## The block a disk carries after the merge -/

theorem adjustDiskAttributes_some {D : Type} (m : GoMap String) (d : MyDisk D) :
    adjustDiskAttributes (some m) d = { Disk := d.Disk, IoTune := some (diskTuneOf m) } := by
  simp only [adjustDiskAttributes, mapRange, foldl_diskStep]

theorem tune_adjustDiskAttributes {D : Type} (m : GoMap String) (d : MyDisk D) :
    (adjustDiskAttributes (some m) d).tune = diskTuneOf m := by
  rw [adjustDiskAttributes_some]
  rfl

/-- The integer field under a numeric key of the block an overlay describes. -/
theorem intField_diskTuneOf (m : GoMap String) (key : String) (h : key ∈ intKeys) :
    (diskTuneOf m).intField key = overlayInt m key := by
  simp only [intKeys, List.mem_cons, List.mem_singleton, List.not_mem_nil, or_false] at h
  rcases h with rfl | rfl | rfl | rfl | rfl | rfl | rfl | rfl | rfl | rfl | rfl | rfl | rfl | rfl | rfl | rfl | rfl | rfl | rfl
  all_goals rfl

theorem lookup_filter_self {V : Type} (l : List (String × V)) (k : String) :
    (l.filter (fun p => p.1 != k)).lookup k = none := by
  rw [List.lookup_eq_none_iff]
  intro p hp
  have := (List.mem_filter.mp hp).2
  simpa [bne_iff_ne, ne_comm] using this

theorem overlayInt_delete_ne (m : GoMap String) (key k : String) (h : k ≠ key) :
    overlayInt (m.delete key) k = overlayInt m k := by
  simp only [overlayInt, GoMap.delete, lookup_filter_ne _ _ _ h]

theorem overlayString_delete_ne (m : GoMap String) (key k : String) (h : k ≠ key) :
    overlayString (m.delete key) k = overlayString m k := by
  simp only [overlayString, GoMap.delete, lookup_filter_ne _ _ _ h]

/-- A key whose value does not parse gives its field what an absent key gives. -/
theorem overlayInt_delete_bad (m : GoMap String) (key v : String)
    (hv : m.entries.lookup key = some v) (hbad : Atoi v = none) (k : String) :
    overlayInt (m.delete key) k = overlayInt m k := by
  by_cases h : k = key
  · subst h
    simp only [overlayInt, GoMap.delete, lookup_filter_self, hv, hbad]
  · exact overlayInt_delete_ne m key k h

end Ksv

namespace Ksv

/-! ## Claims on the two merges -/

/-- C1: for an interface whose MAC is non-empty and is mapped by the overlay to a
non-nil entry `e`, after `adjustInterfaceAttributes` every inbound field (average,
peak, burst, floor) is the value `e.Inbound` stores under its name when the name
is a key and the prior value otherwise (empty when there was no inbound record),
likewise every outbound field (average, peak, burst) with `e.Outbound`, and the
part of the interface outside the bandwidth block is unchanged. -/
theorem adjustInterfaceAttributes_merges_entry {R : Type}
    (o : Option (GoMap (Option MyIfaceTuneAnno))) (i : MyInterface R) (mac : MAC)
    (e : MyIfaceTuneAnno) (hmac : i.Interface.MAC = some mac) (hne : mac.MAC ≠ "")
    (he : mapGet o mac.MAC = some e) :
    ((adjustInterfaceAttributes o i).inbound.Average =
        overlayField e.Inbound "average" i.inbound.Average ∧
      (adjustInterfaceAttributes o i).inbound.Peak =
        overlayField e.Inbound "peak" i.inbound.Peak ∧
      (adjustInterfaceAttributes o i).inbound.Burst =
        overlayField e.Inbound "burst" i.inbound.Burst ∧
      (adjustInterfaceAttributes o i).inbound.Floor =
        overlayField e.Inbound "floor" i.inbound.Floor) ∧
    ((adjustInterfaceAttributes o i).outbound.Average =
        overlayField e.Outbound "average" i.outbound.Average ∧
      (adjustInterfaceAttributes o i).outbound.Peak =
        overlayField e.Outbound "peak" i.outbound.Peak ∧
      (adjustInterfaceAttributes o i).outbound.Burst =
        overlayField e.Outbound "burst" i.outbound.Burst) ∧
    (adjustInterfaceAttributes o i).Interface = i.Interface := by
  refine ⟨?_, ?_, ?_⟩
  · rw [inbound_adjust o i mac e hmac hne he]
    exact foldl_inboundSwitch_field e.Inbound i.inbound
  · rw [outbound_adjust o i mac e hmac hne he]
    exact foldl_outboundSwitch_field e.Outbound i.outbound
  · rw [adjustInterfaceAttributes_matched o i mac e hmac hne he]

/-- C1 at the scenario of the specification: the entry
`{"inbound":{"average":"1000"}}` under MAC `86:5d:c0:a8:64:dd` gives the interface
with that MAC the inbound average `1000`. -/
theorem adjustInterfaceAttributes_merges_entry_witness :
    (adjustInterfaceAttributes (some scenarioBandwidth) scenarioInterface).inbound.Average
      = "1000" :=
  (adjustInterfaceAttributes_merges_entry (some scenarioBandwidth) scenarioInterface
    { MAC := "86:5d:c0:a8:64:dd" } scenarioEntry rfl (by decide) (by decide)).1.1.trans
    (by decide)

/-- C2: for a non-nil disk overlay `m`, `adjustDiskAttributes` replaces the
throttle block of the disk by the block `m` describes (each integer field the
integer parsed from the value under its key, zero when the key is absent or its
value does not parse; the group name the value under `group_name`, empty when
absent; nothing else), leaves the rest of the disk unchanged, and gives the same
disk for any two overlays that agree on the recognised keys. The overlay
`{"read_bytes_sec":"10485760","read_iops_sec":"1000"}` gives a block whose only
non-zero fields are `read_bytes_sec = 10485760` and `read_iops_sec = 1000`. -/
theorem adjustDiskAttributes_builds_block {D : Type} (m : GoMap String) (d : MyDisk D) :
    adjustDiskAttributes (some m) d = { Disk := d.Disk, IoTune := some (diskTuneOf m) } ∧
    (∀ m2 : GoMap String,
      (∀ k ∈ diskKeys, m2.entries.lookup k = m.entries.lookup k) →
        adjustDiskAttributes (some m2) d = adjustDiskAttributes (some m) d) ∧
    adjustDiskAttributes (some scenarioDiskOverlay) d =
      { Disk := d.Disk,
        IoTune := some { ReadBytesSec := 10485760, ReadIopsSec := 1000 } } := by
  have hall : ∀ m1 : GoMap String,
      adjustDiskAttributes (some m1) d = { Disk := d.Disk, IoTune := some (diskTuneOf m1) } :=
    fun m1 => adjustDiskAttributes_some m1 d
  refine ⟨hall m, ?_, ?_⟩
  · intro m2 h
    rw [hall, hall]
    have hi : ∀ k ∈ diskKeys, overlayInt m2 k = overlayInt m k := by
      intro k hk
      unfold overlayInt
      rw [h k hk]
    have hs : overlayString m2 "group_name" = overlayString m "group_name" := by
      unfold overlayString
      rw [h "group_name" (by decide)]
    simp only [diskTuneOf, hs]
    rw [hi "total_bytes_sec" (by decide),
      hi "read_bytes_sec" (by decide),
      hi "write_bytes_sec" (by decide),
      hi "total_iops_sec" (by decide),
      hi "read_iops_sec" (by decide),
      hi "write_iops_sec" (by decide),
      hi "total_bytes_sec_max" (by decide),
      hi "read_bytes_sec_max" (by decide),
      hi "write_bytes_sec_max" (by decide),
      hi "total_iops_sec_max" (by decide),
      hi "read_iops_sec_max" (by decide),
      hi "write_iops_sec_max" (by decide),
      hi "size_iops_sec" (by decide),
      hi "total_bytes_sec_max_length" (by decide),
      hi "read_bytes_sec_max_length" (by decide),
      hi "write_bytes_sec_max_length" (by decide),
      hi "total_iops_sec_max_length" (by decide),
      hi "read_iops_sec_max_length" (by decide),
      hi "write_iops_sec_max_length" (by decide)]
  · rw [hall]
    have : diskTuneOf scenarioDiskOverlay =
        { ReadBytesSec := 10485760, ReadIopsSec := 1000 } := by decide
    rw [this]

/-- C3: applying `adjustInterfaceAttributes` with the same overlay a second time
gives the interface the first application gave. -/
theorem adjustInterfaceAttributes_idempotent {R : Type}
    (o : Option (GoMap (Option MyIfaceTuneAnno))) (i : MyInterface R) :
    adjustInterfaceAttributes o (adjustInterfaceAttributes o i) =
      adjustInterfaceAttributes o i := by
  cases hm : i.Interface.MAC with
  | none =>
    have hi : adjustInterfaceAttributes o i = i :=
      adjustInterfaceAttributes_unmatched o i (by intro mac h; rw [hm] at h; cases h)
    rw [hi, hi]
  | some mac =>
    by_cases hne : mac.MAC = ""
    · have hi : adjustInterfaceAttributes o i = i :=
        adjustInterfaceAttributes_unmatched o i
          (by intro mac2 h h2; rw [hm] at h; cases h; exact absurd hne h2)
      rw [hi, hi]
    · cases he : mapGet o mac.MAC with
      | none =>
        have hi : adjustInterfaceAttributes o i = i :=
          adjustInterfaceAttributes_unmatched o i
            (by intro mac2 h _; rw [hm] at h; cases h; exact he)
        rw [hi, hi]
      | some e =>
        rw [adjustInterfaceAttributes_matched o i mac e hm hne he,
          adjustInterfaceAttributes_matched o
            { Interface := i.Interface, BandWidth := some _ } mac e hm hne he]
        simp only [foldl_inboundStep_idem, foldl_outboundStep_idem]

/-- C4: an interface whose MAC is not a key of the overlay, or is mapped to a nil
entry, is returned unchanged; and the result for an interface is the same under
any two overlays that hold the same entry under the MAC of that interface, so
that assigning or deleting an entry under another MAC does not change it. -/
theorem adjustInterfaceAttributes_keyed {R : Type} (i : MyInterface R) :
    (∀ o : Option (GoMap (Option MyIfaceTuneAnno)),
      (∀ mac, i.Interface.MAC = some mac → mapGet o mac.MAC = none) →
        adjustInterfaceAttributes o i = i) ∧
    (∀ o1 o2 : Option (GoMap (Option MyIfaceTuneAnno)),
      (∀ mac, i.Interface.MAC = some mac → mapGet o1 mac.MAC = mapGet o2 mac.MAC) →
        adjustInterfaceAttributes o1 i = adjustInterfaceAttributes o2 i) ∧
    (∀ (o : GoMap (Option MyIfaceTuneAnno)) (k : String) (v : Option MyIfaceTuneAnno),
      (∀ mac, i.Interface.MAC = some mac → mac.MAC ≠ k) →
        adjustInterfaceAttributes (some (o.set k v)) i = adjustInterfaceAttributes (some o) i ∧
        adjustInterfaceAttributes (some (o.delete k)) i =
          adjustInterfaceAttributes (some o) i) := by
  refine ⟨?_, ?_, ?_⟩
  · intro o h
    exact adjustInterfaceAttributes_unmatched o i (fun mac hm _ => h mac hm)
  · intro o1 o2 h
    exact adjustInterfaceAttributes_congr o1 o2 i h
  · intro o k v h
    exact ⟨adjustInterfaceAttributes_congr _ _ i
        (fun mac hm => mapGet_set_ne o k mac.MAC v (h mac hm)),
      adjustInterfaceAttributes_congr _ _ i
        (fun mac hm => mapGet_delete_ne o k mac.MAC (h mac hm))⟩

/-- C4 at the scenario of the specification: a second interface, with another
MAC, is untouched by the overlay keyed by `86:5d:c0:a8:64:dd`, and an entry added
under that other MAC leaves the first interface with the same result. -/
theorem adjustInterfaceAttributes_keyed_witness :
    adjustInterfaceAttributes (some scenarioBandwidth) scenarioOtherInterface =
        scenarioOtherInterface ∧
      adjustInterfaceAttributes
          (some (scenarioBandwidth.set "52:54:00:00:00:01" (some scenarioEntry)))
          scenarioInterface =
        adjustInterfaceAttributes (some scenarioBandwidth) scenarioInterface :=
  ⟨(adjustInterfaceAttributes_keyed scenarioOtherInterface).1 (some scenarioBandwidth)
      (by intro mac h; cases h; decide),
    ((adjustInterfaceAttributes_keyed scenarioInterface).2.2 scenarioBandwidth
      "52:54:00:00:00:01" (some scenarioEntry) (by intro mac h; cases h; decide)).1⟩

/-- C5, as stated, fails: the disk of the scenario carries a throttle block with
`read_bytes_sec = 5`, the non-nil overlay `{}` does not have the key
`read_bytes_sec`, and after `adjustDiskAttributes` the field is no longer the
value it had before. -/
theorem adjustDiskAttributes_clears_omitted_field :
    (mapIndex (some scenarioEmptyOverlay) "read_bytes_sec" = none ∧
      scenarioThrottledDisk.IoTune.isSome = true) ∧
    (adjustDiskAttributes (some scenarioEmptyOverlay) scenarioThrottledDisk).tune.ReadBytesSec ≠
      scenarioThrottledDisk.tune.ReadBytesSec := by
  decide

/-- C5, amended: for every disk, whatever throttle block it carried, and every
non-nil overlay `m`, each throttle field whose key is not in `m` is zero (the
group name empty) after `adjustDiskAttributes`. -/
theorem adjustDiskAttributes_omitted_field_zero {D : Type} (m : GoMap String) (d : MyDisk D)
    (key : String) (hkey : mapIndex (some m) key = none) :
    (key ∈ intKeys → (adjustDiskAttributes (some m) d).tune.intField key = 0) ∧
    (key = "group_name" → (adjustDiskAttributes (some m) d).tune.GroupName = "") := by
  have hl : m.entries.lookup key = none := hkey
  refine ⟨?_, ?_⟩
  · intro hk
    rw [tune_adjustDiskAttributes, intField_diskTuneOf m key hk]
    simp only [overlayInt, hl]
  · intro hk
    subst hk
    rw [tune_adjustDiskAttributes]
    show overlayString m "group_name" = ""
    simp only [overlayString, hl]

/-- C5, amended, at the scenario: the field `read_bytes_sec`, 5 before, is zero
after the merge of the overlay `{}`. -/
theorem adjustDiskAttributes_omitted_field_zero_witness :
    (adjustDiskAttributes (some scenarioEmptyOverlay) scenarioThrottledDisk).tune.intField
      "read_bytes_sec" = 0 :=
  (adjustDiskAttributes_omitted_field_zero scenarioEmptyOverlay scenarioThrottledDisk
    "read_bytes_sec" (by decide)).1 (by decide)

/-- C6, as stated, fails: the interface of the scenario has the inbound average
`500`, the entry under its MAC maps `average` to the empty string, and after
`adjustInterfaceAttributes` the inbound average is no longer `500`. -/
theorem adjustInterfaceAttributes_empty_value_overwrites :
    (mapGet (some scenarioEmptyValueBandwidth) "86:5d:c0:a8:64:dd" =
        some scenarioEmptyValueEntry ∧
      mapIndex scenarioEmptyValueEntry.Inbound "average" = some "" ∧
      scenarioShapedInterface.inbound.Average = "500") ∧
    (adjustInterfaceAttributes (some scenarioEmptyValueBandwidth)
      scenarioShapedInterface).inbound.Average ≠ "500" := by
  decide

/-- C6, amended: in `adjustInterfaceAttributes` an empty string is a value like
any other: for an interface with a matching MAC, a bandwidth field whose key the
entry maps to the empty string is empty afterwards, whatever it was before. An
empty string is treated as not set by `updateToString` and `updateToInt` only,
which the disk merge uses. -/
theorem adjustInterfaceAttributes_empty_value_clears {R : Type}
    (o : Option (GoMap (Option MyIfaceTuneAnno))) (i : MyInterface R) (mac : MAC)
    (e : MyIfaceTuneAnno) (hmac : i.Interface.MAC = some mac) (hne : mac.MAC ≠ "")
    (he : mapGet o mac.MAC = some e) :
    ((mapIndex e.Inbound "average" = some "" →
        (adjustInterfaceAttributes o i).inbound.Average = "") ∧
      (mapIndex e.Inbound "peak" = some "" →
        (adjustInterfaceAttributes o i).inbound.Peak = "") ∧
      (mapIndex e.Inbound "burst" = some "" →
        (adjustInterfaceAttributes o i).inbound.Burst = "") ∧
      (mapIndex e.Inbound "floor" = some "" →
        (adjustInterfaceAttributes o i).inbound.Floor = "")) ∧
    ((mapIndex e.Outbound "average" = some "" →
        (adjustInterfaceAttributes o i).outbound.Average = "") ∧
      (mapIndex e.Outbound "peak" = some "" →
        (adjustInterfaceAttributes o i).outbound.Peak = "") ∧
      (mapIndex e.Outbound "burst" = some "" →
        (adjustInterfaceAttributes o i).outbound.Burst = "")) ∧
    (∀ r : String, updateToString "" r = r) ∧ (∀ r : Int, updateToInt "" r = r) := by
  have hin := foldl_inboundSwitch_field e.Inbound i.inbound
  have hout := foldl_outboundSwitch_field e.Outbound i.outbound
  simp only at hin hout
  rw [← inbound_adjust o i mac e hmac hne he] at hin
  rw [← outbound_adjust o i mac e hmac hne he] at hout
  refine ⟨⟨?_, ?_, ?_, ?_⟩, ⟨?_, ?_, ?_⟩, fun r => rfl, fun r => rfl⟩
  · intro h; rw [hin.1]; simp only [overlayField, h]
  · intro h; rw [hin.2.1]; simp only [overlayField, h]
  · intro h; rw [hin.2.2.1]; simp only [overlayField, h]
  · intro h; rw [hin.2.2.2]; simp only [overlayField, h]
  · intro h; rw [hout.1]; simp only [overlayField, h]
  · intro h; rw [hout.2.1]; simp only [overlayField, h]
  · intro h; rw [hout.2.2]; simp only [overlayField, h]

/-- C6, amended, at the scenario: the inbound average `500` is empty after the
merge of the entry `{"inbound":{"average":""}}`. -/
theorem adjustInterfaceAttributes_empty_value_clears_witness :
    (adjustInterfaceAttributes (some scenarioEmptyValueBandwidth)
      scenarioShapedInterface).inbound.Average = "" :=
  (adjustInterfaceAttributes_empty_value_clears (some scenarioEmptyValueBandwidth)
    scenarioShapedInterface { MAC := "86:5d:c0:a8:64:dd" } scenarioEmptyValueEntry rfl
    (by decide) (by decide)).1.1 (by decide)

/-- C7: `updateToInt s r` is `r` when `s` is empty or does not parse as an integer
and the parsed integer otherwise; and when a disk overlay maps one numeric key to
a value that does not parse, `adjustDiskAttributes` leaves the field of that key
zero and gives the disk it gives for the overlay without that key. -/
theorem adjustDiskAttributes_skips_bad_field {D : Type} (m : GoMap String) (d : MyDisk D)
    (key v : String) (hkey : key ∈ intKeys) (hv : mapIndex (some m) key = some v)
    (hbad : Atoi v = none) :
    (∀ (s : String) (r : Int),
      (s = "" ∨ Atoi s = none → updateToInt s r = r) ∧
      (∀ n, Atoi s = some n → updateToInt s r = n)) ∧
    (adjustDiskAttributes (some m) d).tune.intField key = 0 ∧
    adjustDiskAttributes (some m) d = adjustDiskAttributes (some (m.delete key)) d := by
  have hl : m.entries.lookup key = some v := hv
  refine ⟨?_, ?_, ?_⟩
  · intro s r
    constructor
    · intro h
      unfold updateToInt
      rcases h with h | h
      · simp [h]
      · simp [h]
    · intro n hn
      unfold updateToInt
      have hs : s ≠ "" := by
        intro h
        rw [h, Atoi_empty] at hn
        cases hn
      simp [hs, hn]
  · rw [tune_adjustDiskAttributes, intField_diskTuneOf m key hkey]
    simp only [overlayInt, hl, hbad]
  · rw [adjustDiskAttributes_some, adjustDiskAttributes_some]
    have hg : key ≠ "group_name" := by
      intro h
      subst h
      revert hkey
      decide
    simp only [diskTuneOf, overlayInt_delete_bad m key v hl hbad,
      overlayString_delete_ne m key "group_name" (Ne.symm hg)]

/-- C7 at a scenario: in the overlay `{"read_bytes_sec":"fast","read_iops_sec":"1000"}`
the value `fast` does not parse; `read_bytes_sec` stays zero and `read_iops_sec` is
set to 1000. -/
theorem adjustDiskAttributes_skips_bad_field_witness :
    (adjustDiskAttributes (some scenarioBadOverlay) scenarioThrottledDisk).tune.intField
        "read_bytes_sec" = 0 ∧
      adjustDiskAttributes (some scenarioBadOverlay) scenarioThrottledDisk =
        { Disk := (), IoTune := some { ReadIopsSec := 1000 } } :=
  ⟨(adjustDiskAttributes_skips_bad_field scenarioBadOverlay scenarioThrottledDisk
      "read_bytes_sec" "fast" (by decide) (by decide) (by decide)).2.1,
    by decide⟩

end Ksv

namespace Ksv

/-! ## Claims on the hook adapters -/

/-- C8: when the workload descriptor decodes and its annotations do not have the
key `iotune.kubesphere.io/disk`, the ksv `OnDefineDomain` returns the domain bytes
it was given, with a nil error; when they do not have the key
`host.usb.vm.kubevirt.io/device`, the USB `onDefineDomain` returns the domain
bytes it was given, with a nil error; and neither makes any call into
`encoding/xml`. -/
theorem onDefineDomain_noop_on_absence {D V S C H V2 S2 : Type} [Inhabited C] [Inhabited H]
    (ck : Codec D V S) (cu : Usb.Codec C H V2 S2) (vmiJSON x : Bytes) :
    (∀ vmi, ck.jsonUnmarshalVmi vmiJSON = .ok vmi →
      mapIndex vmi.Annotations DiskIoTuneAnno = none →
        OnDefineDomain ck { Vmi := vmiJSON, DomainXML := x } =
          { outcome := .returned (some { DomainXML := x }) none, xmlCalls := [] }) ∧
    (∀ vmi, cu.jsonUnmarshalVmi vmiJSON = .ok vmi →
      mapIndex vmi.Annotations Usb.hostUsbDeviceAnnotation = none →
        Usb.onDefineDomain cu vmiJSON x =
          { outcome := .returned x none, xmlCalls := [] }) := by
  refine ⟨?_, ?_⟩
  · intro vmi hvmi hkey
    simp [OnDefineDomain, hvmi, checkContinue, checkContinueForIoTune, hkey]
  · intro vmi hvmi hkey
    simp [Usb.onDefineDomain, hvmi, hkey]

/-- C8 at a descriptor without annotations: both hooks hand back the domain bytes
and call neither the parser nor the encoder. -/
theorem onDefineDomain_noop_on_absence_witness :
    OnDefineDomain scenarioCodec { Vmi := [1], DomainXML := [7, 7] } =
        { outcome := .returned (some { DomainXML := [7, 7] }) none, xmlCalls := [] } ∧
      Usb.onDefineDomain Usb.scenarioCodec [1] [7, 7] =
        { outcome := .returned [7, 7] none, xmlCalls := [] } :=
  ⟨(onDefineDomain_noop_on_absence scenarioCodec Usb.scenarioCodec [1] [7, 7]).1
      { Annotations := none } rfl rfl,
    (onDefineDomain_noop_on_absence scenarioCodec Usb.scenarioCodec [1] [7, 7]).2
      { Annotations := none } rfl rfl⟩

/-- C9: when the workload descriptor does not decode, or the domain description
does not parse, or the domain with the adjusted disks does not encode, the ksv
`OnDefineDomain` returns the domain bytes it was given. -/
theorem OnDefineDomain_safe_fallback {D V S : Type} (c : Codec D V S)
    (params : OnDefineDomainParams)
    (h : (∃ e, c.jsonUnmarshalVmi params.Vmi = .error e) ∨
      (∃ e, c.xmlUnmarshal params.DomainXML = .error e) ∨
      (∃ vmi spec e, c.jsonUnmarshalVmi params.Vmi = .ok vmi ∧
        c.xmlUnmarshal params.DomainXML = .ok spec ∧
        c.xmlMarshal
          { spec with
            Devices := { spec.Devices with
              Disks := diskLoop (gotMyIoTuneParam c vmi.Annotations) spec.Devices.Disks } } =
          .error e)) :
    (OnDefineDomain c params).outcome =
      .returned (some { DomainXML := params.DomainXML }) none := by
  unfold OnDefineDomain
  rcases h with ⟨e, he⟩ | ⟨e, he⟩ | ⟨vmi, spec, e, hv, hs, he⟩
  · simp [he]
  · cases hv : c.jsonUnmarshalVmi params.Vmi with
    | error _ => simp [hv]
    | ok vmi =>
      by_cases hc : checkContinue vmi = true
      · simp [hv, hc, he]
      · simp [hv, hc]
  · by_cases hc : checkContinue vmi = true
    · simp [hv, hs, hc, he]
    · simp [hv, hc]

/-- C9 at the three failures: a descriptor that does not decode, a domain
description that does not parse, and a domain of three disks, which does not
encode. -/
theorem OnDefineDomain_safe_fallback_witness :
    (OnDefineDomain scenarioCodec { Vmi := [], DomainXML := [7, 7] }).outcome =
        .returned (some { DomainXML := [7, 7] }) none ∧
      (OnDefineDomain scenarioCodec { Vmi := [1, 2], DomainXML := [] }).outcome =
        .returned (some { DomainXML := [] }) none ∧
      (OnDefineDomain scenarioCodec { Vmi := [1, 2], DomainXML := [7, 7, 7] }).outcome =
        .returned (some { DomainXML := [7, 7, 7] }) none :=
  ⟨OnDefineDomain_safe_fallback scenarioCodec { Vmi := [], DomainXML := [7, 7] }
      (Or.inl ⟨_, rfl⟩),
    OnDefineDomain_safe_fallback scenarioCodec { Vmi := [1, 2], DomainXML := [] }
      (Or.inr (Or.inl ⟨_, rfl⟩)),
    OnDefineDomain_safe_fallback scenarioCodec { Vmi := [1, 2], DomainXML := [7, 7, 7] }
      (Or.inr (Or.inr ⟨{ Annotations := some scenarioAnnotations }, _, _, rfl, rfl, rfl⟩))⟩

/-- C10: for every input, the ksv `OnDefineDomain` returns a non-nil result
together with a nil error; it does not panic. -/
theorem OnDefineDomain_never_faults {D V S : Type} (c : Codec D V S)
    (params : OnDefineDomainParams) :
    ∃ r, (OnDefineDomain c params).outcome = .returned (some r) none := by
  unfold OnDefineDomain
  cases hv : c.jsonUnmarshalVmi params.Vmi with
  | error _ => exact ⟨{ DomainXML := params.DomainXML }, by simp [hv]⟩
  | ok vmi =>
    by_cases hc : checkContinue vmi = true
    · cases hs : c.xmlUnmarshal params.DomainXML with
      | error _ => exact ⟨{ DomainXML := params.DomainXML }, by simp [hv, hc, hs]⟩
      | ok spec =>
        cases he : c.xmlMarshal
          { spec with
            Devices := { spec.Devices with
              Disks := diskLoop (gotMyIoTuneParam c vmi.Annotations) spec.Devices.Disks } } with
        | error _ => exact ⟨{ DomainXML := params.DomainXML }, by simp [hv, hc, hs, he]⟩
        | ok marshal => exact ⟨{ DomainXML := marshal }, by simp [hv, hc, hs, he]⟩
    · exact ⟨{ DomainXML := params.DomainXML }, by simp [hv, hc]⟩

end Ksv

/-! ## Splitting at a separator -/

/-- Splitting yields one token more than there are separators. -/
theorem length_splitChars (sep : Char) (cs : List Char) :
    (splitChars sep cs).length = cs.count sep + 1 := by
  induction cs with
  | nil => rfl
  | cons c rest ih =>
    unfold splitChars
    by_cases h : c = sep
    · subst h
      simp [ih]
    · have hne : (c == sep) = false := by simpa using h
      rw [if_neg h, List.count_cons, hne]
      cases hs : splitChars sep rest with
      | nil => rw [hs] at ih; simp at ih
      | cons t ts => rw [hs] at ih; simpa using ih

theorem length_stringsSplit (s : String) (sep : Char) :
    (stringsSplit s sep).length = s.toList.count sep + 1 := by
  unfold stringsSplit
  rw [List.length_map, length_splitChars]

namespace Usb

/-! ## The USB hook -/

/-- The model the hook computes is the model the annotations ask for. -/
theorem controllerModelOf_eq (annotations : Option (GoMap String)) :
    (if mapGet annotations hostUsbControllerAnnotation = "" then "piix3-uhci"
      else mapGet annotations hostUsbControllerAnnotation) = controllerModelOf annotations := by
  unfold controllerModelOf mapGet
  cases mapIndex annotations hostUsbControllerAnnotation with
  | none => rfl
  | some model => rfl

/-- The two appends, written out. -/
theorem appendUsb_eq {C H V S : Type} [Inhabited C] [Inhabited H]
    (ctlModel vendor product : String) (spec : DomainSpec C H V S) :
    appendUsb ctlModel vendor product spec =
      { Devices :=
          { Controllers := spec.Devices.Controllers ++ [usbController ctlModel],
            HostDevices := spec.Devices.HostDevices ++ [usbHostDevice vendor product],
            rest := spec.Devices.rest },
        rest := spec.rest } := rfl

/-- What `onDefineDomain` does once the descriptor is decoded, the device value
split in two and the domain parsed. -/
theorem onDefineDomain_wellformed {C H V S : Type} [Inhabited C] [Inhabited H]
    (c : Codec C H V S) (vmiJSON x : Bytes) (vmi : VirtualMachineInstance)
    (device vendor product : String) (spec : DomainSpec C H V S)
    (hvmi : c.jsonUnmarshalVmi vmiJSON = .ok vmi)
    (hdev : mapIndex vmi.Annotations hostUsbDeviceAnnotation = some device)
    (hsplit : stringsSplit device ':' = [vendor, product])
    (hspec : c.xmlUnmarshal x = .ok spec) :
    onDefineDomain c vmiJSON x =
      match c.xmlMarshal (appendUsb (controllerModelOf vmi.Annotations) vendor product spec) with
      | .error err => { outcome := .panicked err, xmlCalls := [.unmarshal, .marshal] }
      | .ok newDomainXML =>
        { outcome := .returned newDomainXML none, xmlCalls := [.unmarshal, .marshal] } := by
  unfold onDefineDomain
  simp only [hvmi, hdev, hsplit, hspec, controllerModelOf_eq]

end Usb

namespace Usb

/-! ## Claims on the USB hook -/

/-- C11: when the workload descriptor decodes and the value of the device
annotation does not split at `:` into exactly two tokens, that is, when it has no
colon or more than one, `onDefineDomain` returns the domain bytes it was given
with a nil error and makes no call into `encoding/xml`, so that nothing is parsed
and nothing appended, whatever the other annotations and the domain bytes are. -/
theorem onDefineDomain_malformed_device {C H V S : Type} [Inhabited C] [Inhabited H]
    (c : Codec C H V S) (vmiJSON x : Bytes) (vmi : VirtualMachineInstance) (device : String)
    (hvmi : c.jsonUnmarshalVmi vmiJSON = .ok vmi)
    (hdev : mapIndex vmi.Annotations hostUsbDeviceAnnotation = some device)
    (hsplit : (stringsSplit device ':').length ≠ 2) :
    onDefineDomain c vmiJSON x = { outcome := .returned x none, xmlCalls := [] } ∧
    device.toList.count ':' ≠ 1 := by
  refine ⟨?_, ?_⟩
  · unfold onDefineDomain
    simp only [hvmi, hdev]
    rcases hs : stringsSplit device ':' with _ | ⟨a, _ | ⟨b, _ | ⟨d, t⟩⟩⟩
    · rfl
    · rfl
    · rw [hs] at hsplit
      exact absurd rfl hsplit
    · rfl
  · intro h
    apply hsplit
    rw [length_stringsSplit, h]

/-- C11 at the values `bad-format`, which has no colon, and `1:2:3`, which has
two, with a domain description that would not parse and one that would. -/
theorem onDefineDomain_malformed_device_witness :
    onDefineDomain (scenarioDeviceCodec (some (scenarioDeviceAnnotations "bad-format")))
        [1] [] =
        { outcome := .returned [] none, xmlCalls := [] } ∧
      onDefineDomain (scenarioDeviceCodec (some (scenarioDeviceAnnotations "1:2:3")))
        [1] [7, 7] =
        { outcome := .returned [7, 7] none, xmlCalls := [] } :=
  ⟨(onDefineDomain_malformed_device
      (scenarioDeviceCodec (some (scenarioDeviceAnnotations "bad-format"))) [1] []
      { Annotations := some (scenarioDeviceAnnotations "bad-format") } "bad-format"
      rfl rfl (by decide)).1,
    (onDefineDomain_malformed_device
      (scenarioDeviceCodec (some (scenarioDeviceAnnotations "1:2:3"))) [1] [7, 7]
      { Annotations := some (scenarioDeviceAnnotations "1:2:3") } "1:2:3"
      rfl rfl (by decide)).1⟩

/-- C12: when the value of the device annotation splits at `:` into exactly the
two tokens `vendor` and `product` and the domain description parses to `spec`,
the domain `onDefineDomain` hands to the encoder is `spec` with one controller
(type `usb`, index `0`, the model of the controller annotation when that is
present and non-empty, `piix3-uhci` otherwise) added after its controllers and
one host device (mode `subsystem`, type `usb`, managed `yes`, the vendor and
product ids, address `usb`/`0`/`1`) added after its host devices, everything else
as parsed; the encoded bytes are returned with a nil error. -/
theorem onDefineDomain_injects_usb {C H V S : Type} [Inhabited C] [Inhabited H]
    (c : Codec C H V S) (vmiJSON x : Bytes) (vmi : VirtualMachineInstance)
    (device vendor product : String) (spec : DomainSpec C H V S)
    (hvmi : c.jsonUnmarshalVmi vmiJSON = .ok vmi)
    (hdev : mapIndex vmi.Annotations hostUsbDeviceAnnotation = some device)
    (hsplit : stringsSplit device ':' = [vendor, product])
    (hspec : c.xmlUnmarshal x = .ok spec) :
    onDefineDomain c vmiJSON x =
      match c.xmlMarshal
          { Devices :=
              { Controllers :=
                  spec.Devices.Controllers ++ [usbController (controllerModelOf vmi.Annotations)],
                HostDevices := spec.Devices.HostDevices ++ [usbHostDevice vendor product],
                rest := spec.Devices.rest },
            rest := spec.rest } with
      | .error err => { outcome := .panicked err, xmlCalls := [.unmarshal, .marshal] }
      | .ok newDomainXML =>
        { outcome := .returned newDomainXML none, xmlCalls := [.unmarshal, .marshal] } := by
  rw [onDefineDomain_wellformed c vmiJSON x vmi device vendor product spec hvmi hdev hsplit hspec,
    appendUsb_eq]

/-- C12 at the scenario of the specification: the value `0951:1665` without a
controller annotation splits into vendor `0951` and product `1665`, the model is
`piix3-uhci`, and a domain of one controller is encoded with two controllers and
one host device. -/
theorem onDefineDomain_injects_usb_witness :
    (stringsSplit "0951:1665" ':' = ["0951", "1665"] ∧
      controllerModelOf (some (scenarioDeviceAnnotations "0951:1665")) = "piix3-uhci") ∧
    onDefineDomain (scenarioDeviceCodec (some (scenarioDeviceAnnotations "0951:1665")))
        [1] [7] =
      { outcome := .returned [1, 1, 2] none, xmlCalls := [.unmarshal, .marshal] } :=
  ⟨⟨by decide, by decide⟩,
    (onDefineDomain_injects_usb
      (scenarioDeviceCodec (some (scenarioDeviceAnnotations "0951:1665"))) [1] [7]
      { Annotations := some (scenarioDeviceAnnotations "0951:1665") } "0951:1665"
      "0951" "1665" _ rfl rfl (by decide) rfl).trans rfl⟩

/-- C13: applying the two appends twice to a domain of `n` controllers and `k`
host devices gives `n + 2` controllers and `k + 2` host devices, the last two
controllers equal to each other and the last two host devices equal to each
other, and never the domain one application gives. -/
theorem appendUsb_not_idempotent {C H V S : Type} [Inhabited C] [Inhabited H]
    (ctlModel vendor product : String) (spec : DomainSpec C H V S) :
    ((appendUsb ctlModel vendor product (appendUsb ctlModel vendor product spec)).Devices.Controllers
        = spec.Devices.Controllers ++ [usbController ctlModel, usbController ctlModel] ∧
      (appendUsb ctlModel vendor product
          (appendUsb ctlModel vendor product spec)).Devices.HostDevices
        = spec.Devices.HostDevices ++
            [usbHostDevice vendor product, usbHostDevice vendor product]) ∧
    ((appendUsb ctlModel vendor product
          (appendUsb ctlModel vendor product spec)).Devices.Controllers.length
        = spec.Devices.Controllers.length + 2 ∧
      (appendUsb ctlModel vendor product
          (appendUsb ctlModel vendor product spec)).Devices.HostDevices.length
        = spec.Devices.HostDevices.length + 2) ∧
    appendUsb ctlModel vendor product (appendUsb ctlModel vendor product spec) ≠
      appendUsb ctlModel vendor product spec := by
  refine ⟨⟨?_, ?_⟩, ⟨?_, ?_⟩, ?_⟩
  · simp [appendUsb_eq]
  · simp [appendUsb_eq]
  · simp [appendUsb_eq]
  · simp [appendUsb_eq]
  · intro h
    have hl := congrArg (fun s => s.Devices.Controllers.length) h
    simp [appendUsb_eq] at hl

end Usb

namespace Ksv

/-! ## The disk loop -/

theorem get?_append_cons_length {A : Type} (p s : List A) (d : A) :
    (p ++ d :: s).get? p.length = some d := by
  induction p with
  | nil => rfl
  | cons a p ih => simpa using ih

theorem set_append_cons_length {A : Type} (p s : List A) (d e : A) :
    (p ++ d :: s).set p.length e = p ++ e :: s := by
  induction p with
  | nil => rfl
  | cons a p ih => simp [List.set, ih]

/-- The loop, started at the index where the processed part `p` ends, adjusts the
disks that remain and keeps their order. -/
theorem foldl_diskLoop_from {D : Type} (myIoTune : Option (GoMap String))
    (s p : List (MyDisk D)) :
    (List.range' p.length s.length).foldl
        (fun ds i =>
          match ds.get? i with
          | some myDisk => ds.set i (adjustDiskAttributes myIoTune myDisk)
          | none => ds)
        (p ++ s) =
      p ++ s.map (adjustDiskAttributes myIoTune) := by
  induction s generalizing p with
  | nil => simp
  | cons d s ih =>
    rw [List.length_cons, List.range'_succ, List.foldl_cons, get?_append_cons_length]
    simp only [set_append_cons_length]
    have h := ih (p ++ [adjustDiskAttributes myIoTune d])
    simp only [List.length_append, List.length_singleton, List.append_assoc,
      List.singleton_append] at h
    rw [h, List.map_cons]

/-- The disk loop adjusts every disk, in place. -/
theorem diskLoop_eq_map {D : Type} (myIoTune : Option (GoMap String))
    (disks : List (MyDisk D)) :
    diskLoop myIoTune disks = disks.map (adjustDiskAttributes myIoTune) := by
  have h := foldl_diskLoop_from myIoTune disks []
  simp only [List.length_nil, List.nil_append] at h
  unfold diskLoop
  rw [List.range_eq_range', h]

/-- What the ksv `OnDefineDomain` does once the descriptor is decoded with the disk
key among its annotations and the domain parsed. -/
theorem OnDefineDomain_parsed {D V S : Type} (c : Codec D V S) (params : OnDefineDomainParams)
    (vmi : VirtualMachineInstance) (spec : MyDomainSpec D V S)
    (hvmi : c.jsonUnmarshalVmi params.Vmi = .ok vmi)
    (hkey : (mapIndex vmi.Annotations DiskIoTuneAnno).isSome = true)
    (hspec : c.xmlUnmarshal params.DomainXML = .ok spec) :
    OnDefineDomain c params =
      match c.xmlMarshal
          { DomainSpec := spec.DomainSpec,
            Devices :=
              { Devices := spec.Devices.Devices,
                Disks := spec.Devices.Disks.map
                  (adjustDiskAttributes (gotMyIoTuneParam c vmi.Annotations)) } } with
      | .error _ =>
        { outcome := .returned (some { DomainXML := params.DomainXML }) none,
          xmlCalls := [.unmarshal, .marshal] }
      | .ok marshal =>
        { outcome := .returned (some { DomainXML := marshal }) none,
          xmlCalls := [.unmarshal, .marshal] } := by
  unfold OnDefineDomain
  simp only [hvmi, checkContinue, checkContinueForIoTune, hkey, hspec, diskLoop_eq_map]
  rfl

end Ksv

namespace Ksv

/-! ## Claims on the short-circuit test, the loops and the decoders -/

/-- C14, the code at the failing input: for the descriptor whose only annotation
is the bandwidth key `ifacetune.kubesphere.io/bandwidth`, the test
`checkContinueForIfTune`, written for that key, is true, and yet `checkContinue`,
which never calls it, is false. -/
theorem checkContinue_ignores_bandwidth_key :
    ((mapIndex scenarioBandwidthOnlyVmi.Annotations IfaceTuneAnno).isSome = true ∧
      checkContinueForIfTune scenarioBandwidthOnlyVmi = true) ∧
    checkContinue scenarioBandwidthOnlyVmi = false := by
  decide

/-- What `checkContinue` computes as the code has it: it calls
`checkContinueForIoTune` only, so it is true exactly when the annotations have the
disk key `iotune.kubesphere.io/disk`, and the ksv `OnDefineDomain` returns the
domain bytes it was given whenever that key is absent. -/
theorem checkContinue_iff_disk_key (vmi : VirtualMachineInstance) :
    (checkContinue vmi = true ↔ (mapIndex vmi.Annotations DiskIoTuneAnno).isSome = true) ∧
    (checkContinue vmi = checkContinueForIoTune vmi) ∧
    (∀ (D V S : Type) (c : Codec D V S) (params : OnDefineDomainParams),
      c.jsonUnmarshalVmi params.Vmi = .ok vmi →
      mapIndex vmi.Annotations DiskIoTuneAnno = none →
        OnDefineDomain c params =
          { outcome := .returned (some { DomainXML := params.DomainXML }) none,
            xmlCalls := [] }) := by
  refine ⟨?_, ?_, ?_⟩
  · unfold checkContinue checkContinueForIoTune
    cases (mapIndex vmi.Annotations DiskIoTuneAnno).isSome <;> simp
  · unfold checkContinue
    cases checkContinueForIoTune vmi <;> rfl
  · intro D V S c params hvmi hkey
    simp [OnDefineDomain, hvmi, checkContinue, checkContinueForIoTune, hkey]

/-- C15: an interface whose MAC element is missing, or whose MAC address is the
empty string, is returned unchanged by `adjustInterfaceAttributes`, for every
overlay. -/
theorem adjustInterfaceAttributes_no_mac {R : Type}
    (o : Option (GoMap (Option MyIfaceTuneAnno))) (i : MyInterface R)
    (h : i.Interface.MAC = none ∨ ∃ mac, i.Interface.MAC = some mac ∧ mac.MAC = "") :
    adjustInterfaceAttributes o i = i := by
  unfold adjustInterfaceAttributes
  rcases h with h | ⟨mac, h, hm⟩
  · simp only [h]
  · simp only [h, hm, if_true]

/-- C15 at an overlay that has an entry under the empty string: neither the
interface without a MAC element nor the one with the empty address is changed. -/
theorem adjustInterfaceAttributes_no_mac_witness :
    (mapGet (some scenarioEmptyKeyBandwidth) "" = some scenarioEntry) ∧
      adjustInterfaceAttributes (some scenarioEmptyKeyBandwidth) scenarioNoMacInterface =
        scenarioNoMacInterface ∧
      adjustInterfaceAttributes (some scenarioEmptyKeyBandwidth) scenarioEmptyMacInterface =
        scenarioEmptyMacInterface :=
  ⟨by decide,
    adjustInterfaceAttributes_no_mac (some scenarioEmptyKeyBandwidth) scenarioNoMacInterface
      (Or.inl rfl),
    adjustInterfaceAttributes_no_mac (some scenarioEmptyKeyBandwidth) scenarioEmptyMacInterface
      (Or.inr ⟨{ MAC := "" }, rfl, rfl⟩)⟩

/-- C16: the disk loop of the ksv `OnDefineDomain` gives a list of the same length
whose element at every index is `adjustDiskAttributes` of the disk at that index;
for a non-nil overlay every disk ends with the same throttle block, the one the
overlay describes; and the domain handed to the encoder is the parsed domain with
that disk list and nothing else changed. -/
theorem diskLoop_uniform {D : Type} (m : Option (GoMap String)) (disks : List (MyDisk D)) :
    diskLoop m disks = disks.map (adjustDiskAttributes m) ∧
    (diskLoop m disks).length = disks.length ∧
    (∀ i, (diskLoop m disks).get? i = (disks.get? i).map (adjustDiskAttributes m)) ∧
    (∀ t : GoMap String, ∀ d ∈ diskLoop (some t) disks, d.IoTune = some (diskTuneOf t)) ∧
    (∀ (V S : Type) (c : Codec D V S) (params : OnDefineDomainParams)
      (vmi : VirtualMachineInstance) (spec : MyDomainSpec D V S),
      c.jsonUnmarshalVmi params.Vmi = .ok vmi →
      (mapIndex vmi.Annotations DiskIoTuneAnno).isSome = true →
      c.xmlUnmarshal params.DomainXML = .ok spec →
        OnDefineDomain c params =
          match c.xmlMarshal
              { DomainSpec := spec.DomainSpec,
                Devices :=
                  { Devices := spec.Devices.Devices,
                    Disks := spec.Devices.Disks.map
                      (adjustDiskAttributes (gotMyIoTuneParam c vmi.Annotations)) } } with
          | .error _ =>
            { outcome := .returned (some { DomainXML := params.DomainXML }) none,
              xmlCalls := [.unmarshal, .marshal] }
          | .ok marshal =>
            { outcome := .returned (some { DomainXML := marshal }) none,
              xmlCalls := [.unmarshal, .marshal] }) := by
  refine ⟨diskLoop_eq_map m disks, ?_, ?_, ?_, ?_⟩
  · rw [diskLoop_eq_map, List.length_map]
  · intro i
    rw [diskLoop_eq_map]
    simp only [List.get?_eq_getElem?, List.getElem?_map]
  · intro t d hd
    rw [diskLoop_eq_map] at hd
    obtain ⟨d0, _, rfl⟩ := List.mem_map.mp hd
    rw [adjustDiskAttributes_some]
  · intro V S c params vmi spec hvmi hkey hspec
    exact OnDefineDomain_parsed c params vmi spec hvmi hkey hspec

/-- C16 at a list of two disks, one of which carried a throttle block, and at the
stand-in codec: both disks end with the block of the scenario overlay, and a
domain of two disks is handed to the encoder with both disks throttled. -/
theorem diskLoop_uniform_witness :
    diskLoop (some scenarioDiskOverlay)
        [scenarioThrottledDisk, { Disk := (), IoTune := none }] =
      [{ Disk := (), IoTune := some { ReadBytesSec := 10485760, ReadIopsSec := 1000 } },
       { Disk := (), IoTune := some { ReadBytesSec := 10485760, ReadIopsSec := 1000 } }] ∧
    OnDefineDomain scenarioCodec { Vmi := [1, 2], DomainXML := [7, 7] } =
      { outcome := .returned (some { DomainXML := [1, 1] }) none,
        xmlCalls := [.unmarshal, .marshal] } :=
  ⟨(diskLoop_uniform (some scenarioDiskOverlay)
      [scenarioThrottledDisk, { Disk := (), IoTune := none }]).1.trans (by decide),
    ((diskLoop_uniform (some scenarioDiskOverlay)
      [scenarioThrottledDisk, { Disk := (), IoTune := none }]).2.2.2.2
      Unit Unit scenarioCodec { Vmi := [1, 2], DomainXML := [7, 7] }
      { Annotations := some scenarioAnnotations } _ rfl rfl rfl).trans rfl⟩

end Ksv

namespace Ksv

/-! ## Claims on faults, absent overlays and repeated disk merges -/

/-- C17, as stated, fails: at a payload that does not decode, the ksv
`PreCloudInitIso` panics and returns no result. -/
theorem PreCloudInitIso_panics_on_undecodable :
    scenarioCodec.jsonUnmarshalCloudInit [] =
        .error { msg := "unexpected end of JSON input" } ∧
      PreCloudInitIso scenarioCodec { CloudInitData := [] } =
        .panicked { msg := "unexpected end of JSON input" } :=
  ⟨rfl, rfl⟩

/-- C17, amended: the USB `PreCloudInitIso` returns its payload unchanged with a
nil error for every payload; the ksv `PreCloudInitIso` returns its payload
unchanged with a nil error when the payload decodes, and panics with the decoding
error when it does not; neither ever returns another payload. -/
theorem PreCloudInitIso_pass_through {D V S : Type} (c : Codec D V S)
    (params : PreCloudInitIsoParams) :
    Usb.PreCloudInitIso params =
      .returned (some { CloudInitData := params.CloudInitData }) none ∧
    (∀ u, c.jsonUnmarshalCloudInit params.CloudInitData = .ok u →
      PreCloudInitIso c params =
        .returned (some { CloudInitData := params.CloudInitData }) none) ∧
    (∀ e, c.jsonUnmarshalCloudInit params.CloudInitData = .error e →
      PreCloudInitIso c params = .panicked e) := by
  refine ⟨rfl, ?_, ?_⟩
  · intro u h
    simp only [PreCloudInitIso, h]
  · intro e h
    simp only [PreCloudInitIso, h]

/-- C18: `gotMyIoTuneParam` returns the nil overlay when the disk key is missing,
when its value is the empty string and when its value does not decode;
`gotMyIfTuneParam` does the same for the bandwidth key; and
`adjustDiskAttributes` with the nil overlay returns the disk it was given, throttle
block included. -/
theorem absent_overlay_contributes_nothing {D V S : Type} (c : Codec D V S)
    (annotations : Option (GoMap String)) :
    ((mapIndex annotations DiskIoTuneAnno = none → gotMyIoTuneParam c annotations = none) ∧
      (mapIndex annotations DiskIoTuneAnno = some "" → gotMyIoTuneParam c annotations = none) ∧
      (∀ v e, mapIndex annotations DiskIoTuneAnno = some v →
        c.jsonUnmarshalIoTune v = .error e → gotMyIoTuneParam c annotations = none)) ∧
    ((mapIndex annotations IfaceTuneAnno = none → gotMyIfTuneParam c annotations = none) ∧
      (mapIndex annotations IfaceTuneAnno = some "" → gotMyIfTuneParam c annotations = none) ∧
      (∀ v e, mapIndex annotations IfaceTuneAnno = some v →
        c.jsonUnmarshalIfTune v = .error e → gotMyIfTuneParam c annotations = none)) ∧
    (∀ (D2 : Type) (d : MyDisk D2), adjustDiskAttributes none d = d) := by
  refine ⟨⟨?_, ?_, ?_⟩, ⟨?_, ?_, ?_⟩, ?_⟩
  · intro h
    simp [gotMyIoTuneParam, mapGet, h]
  · intro h
    simp [gotMyIoTuneParam, mapGet, h]
  · intro v e h he
    by_cases hv : v = ""
    · simp [gotMyIoTuneParam, mapGet, h, hv]
    · simp [gotMyIoTuneParam, mapGet, h, hv, he]
  · intro h
    simp [gotMyIfTuneParam, mapGet, h]
  · intro h
    simp [gotMyIfTuneParam, mapGet, h]
  · intro v e h he
    by_cases hv : v = ""
    · simp [gotMyIfTuneParam, mapGet, h, hv]
    · simp [gotMyIfTuneParam, mapGet, h, hv, he]
  · intro D2 d
    rfl

/-- C18 at three sets of annotations, without the disk key, with the empty value
and with a value that does not decode, and at a disk that carries a throttle
block. -/
theorem absent_overlay_contributes_nothing_witness :
    (gotMyIoTuneParam scenarioFailingCodec none = none ∧
      gotMyIoTuneParam scenarioFailingCodec (some scenarioEmptyDiskAnnotations) = none ∧
      gotMyIoTuneParam scenarioFailingCodec (some scenarioAnnotations) = none) ∧
    adjustDiskAttributes none scenarioThrottledDisk = scenarioThrottledDisk :=
  ⟨⟨(absent_overlay_contributes_nothing scenarioFailingCodec none).1.1 rfl,
      (absent_overlay_contributes_nothing scenarioFailingCodec
        (some scenarioEmptyDiskAnnotations)).1.2.1 rfl,
      (absent_overlay_contributes_nothing scenarioFailingCodec
        (some scenarioAnnotations)).1.2.2 "overlay" { msg := "invalid character" } rfl rfl⟩,
    (absent_overlay_contributes_nothing scenarioFailingCodec none).2.2 Unit
      scenarioThrottledDisk⟩

/-- C20: for a non-nil overlay, applying `adjustDiskAttributes` a second time gives
the disk the first application gave, and the throttle block of the result does not
depend on the disk: two disks that differ only in the throttle block they carried
end equal. -/
theorem adjustDiskAttributes_idempotent {D : Type} (m : GoMap String) (d : MyDisk D) :
    adjustDiskAttributes (some m) (adjustDiskAttributes (some m) d) =
      adjustDiskAttributes (some m) d ∧
    (∀ d2 : MyDisk D,
      (adjustDiskAttributes (some m) d2).IoTune = (adjustDiskAttributes (some m) d).IoTune) ∧
    (∀ d2 : MyDisk D, d2.Disk = d.Disk →
      adjustDiskAttributes (some m) d2 = adjustDiskAttributes (some m) d) := by
  refine ⟨?_, ?_, ?_⟩
  · rw [adjustDiskAttributes_some m d, adjustDiskAttributes_some]
  · intro d2
    rw [adjustDiskAttributes_some, adjustDiskAttributes_some]
  · intro d2 h
    rw [adjustDiskAttributes_some, adjustDiskAttributes_some, h]

end Ksv

namespace Usb

/-- A panic of `onDefineDomain` is a panic of the method `OnDefineDomain`. -/
theorem OnDefineDomain_panicked {C H V S : Type} [Inhabited C] [Inhabited H]
    (c : Codec C H V S) (params : OnDefineDomainParams) (e : GoError)
    (h : (onDefineDomain c params.Vmi params.DomainXML).outcome = .panicked e) :
    OnDefineDomain c params = .panicked e := by
  unfold OnDefineDomain
  rw [h]

end Usb

namespace Ksv

/-! ## Claim on the two fault policies -/

/-- C19: the USB `onDefineDomain` panics, and so returns neither domain bytes nor
an error value, when the workload descriptor does not decode, when the device
value splits in two but the domain description does not parse, and when the
domain with the appended controller and host device does not encode; the method
`OnDefineDomain` of the USB hook panics with it. The ksv `OnDefineDomain` returns
the domain bytes it was given, with a nil error, when the descriptor does not
decode, when the domain description does not parse and when the domain with the
adjusted disks does not encode. -/
theorem onDefineDomain_fatal_vs_recovered {C H V S D V2 S2 : Type}
    [Inhabited C] [Inhabited H]
    (cu : Usb.Codec C H V S) (ck : Codec D V2 S2) (vmiJSON x : Bytes) :
    ((∀ e, cu.jsonUnmarshalVmi vmiJSON = .error e →
        (Usb.onDefineDomain cu vmiJSON x).outcome = .panicked e ∧
        Usb.OnDefineDomain cu { Vmi := vmiJSON, DomainXML := x } = .panicked e) ∧
      (∀ vmi device vendor product e, cu.jsonUnmarshalVmi vmiJSON = .ok vmi →
        mapIndex vmi.Annotations Usb.hostUsbDeviceAnnotation = some device →
        stringsSplit device ':' = [vendor, product] →
        cu.xmlUnmarshal x = .error e →
          (Usb.onDefineDomain cu vmiJSON x).outcome = .panicked e ∧
          Usb.OnDefineDomain cu { Vmi := vmiJSON, DomainXML := x } = .panicked e) ∧
      (∀ vmi device vendor product spec e, cu.jsonUnmarshalVmi vmiJSON = .ok vmi →
        mapIndex vmi.Annotations Usb.hostUsbDeviceAnnotation = some device →
        stringsSplit device ':' = [vendor, product] →
        cu.xmlUnmarshal x = .ok spec →
        cu.xmlMarshal
            (Usb.appendUsb (Usb.controllerModelOf vmi.Annotations) vendor product spec) =
          .error e →
          (Usb.onDefineDomain cu vmiJSON x).outcome = .panicked e ∧
          Usb.OnDefineDomain cu { Vmi := vmiJSON, DomainXML := x } = .panicked e)) ∧
    ((∀ e, ck.jsonUnmarshalVmi vmiJSON = .error e →
        (OnDefineDomain ck { Vmi := vmiJSON, DomainXML := x }).outcome =
          .returned (some { DomainXML := x }) none) ∧
      (∀ e, ck.xmlUnmarshal x = .error e →
        (OnDefineDomain ck { Vmi := vmiJSON, DomainXML := x }).outcome =
          .returned (some { DomainXML := x }) none) ∧
      (∀ vmi spec e, ck.jsonUnmarshalVmi vmiJSON = .ok vmi →
        ck.xmlUnmarshal x = .ok spec →
        ck.xmlMarshal
            { DomainSpec := spec.DomainSpec,
              Devices :=
                { Devices := spec.Devices.Devices,
                  Disks := spec.Devices.Disks.map
                    (adjustDiskAttributes (gotMyIoTuneParam ck vmi.Annotations)) } } =
          .error e →
        (OnDefineDomain ck { Vmi := vmiJSON, DomainXML := x }).outcome =
          .returned (some { DomainXML := x }) none)) := by
  refine ⟨⟨?_, ?_, ?_⟩, ⟨?_, ?_, ?_⟩⟩
  · intro e he
    have h : (Usb.onDefineDomain cu vmiJSON x).outcome = .panicked e := by
      simp only [Usb.onDefineDomain, he]
    exact ⟨h, Usb.OnDefineDomain_panicked cu _ e h⟩
  · intro vmi device vendor product e hvmi hdev hsplit he
    have h : (Usb.onDefineDomain cu vmiJSON x).outcome = .panicked e := by
      simp only [Usb.onDefineDomain, hvmi, hdev, hsplit, he]
    exact ⟨h, Usb.OnDefineDomain_panicked cu _ e h⟩
  · intro vmi device vendor product spec e hvmi hdev hsplit hspec he
    have h : (Usb.onDefineDomain cu vmiJSON x).outcome = .panicked e := by
      rw [Usb.onDefineDomain_wellformed cu vmiJSON x vmi device vendor product spec
        hvmi hdev hsplit hspec, he]
    exact ⟨h, Usb.OnDefineDomain_panicked cu _ e h⟩
  · intro e he
    simp only [OnDefineDomain, he]
  · intro e he
    cases hv : ck.jsonUnmarshalVmi vmiJSON with
    | error _ => simp [OnDefineDomain, hv]
    | ok vmi =>
      by_cases hc : checkContinue vmi = true
      · simp [OnDefineDomain, hv, hc, he]
      · simp [OnDefineDomain, hv, hc]
  · intro vmi spec e hvmi hspec he
    by_cases hkey : (mapIndex vmi.Annotations DiskIoTuneAnno).isSome = true
    · rw [OnDefineDomain_parsed ck _ vmi spec hvmi hkey hspec, he]
    · simp [OnDefineDomain, hvmi, checkContinue, checkContinueForIoTune, hkey]

/-- C19 at the stand-in codecs: the USB hook panics on a descriptor that does not
decode, on a domain description that does not parse and on a domain that does
not encode, where the ksv hook returns the domain bytes it was given. -/
theorem onDefineDomain_fatal_vs_recovered_witness :
    ((Usb.onDefineDomain
          (Usb.scenarioDeviceCodec (some (Usb.scenarioDeviceAnnotations "0951:1665")))
          [] [7, 7]).outcome =
        .panicked { msg := "unexpected end of JSON input" } ∧
      (Usb.onDefineDomain
          (Usb.scenarioDeviceCodec (some (Usb.scenarioDeviceAnnotations "0951:1665")))
          [1] []).outcome =
        .panicked { msg := "EOF" } ∧
      (Usb.onDefineDomain
          (Usb.scenarioDeviceCodec (some (Usb.scenarioDeviceAnnotations "0951:1665")))
          [1] [7, 7]).outcome =
        .panicked { msg := "unsupported" }) ∧
    ((OnDefineDomain scenarioCodec { Vmi := [], DomainXML := [7, 7] }).outcome =
        .returned (some { DomainXML := [7, 7] }) none ∧
      (OnDefineDomain scenarioCodec { Vmi := [1, 2], DomainXML := [] }).outcome =
        .returned (some { DomainXML := [] }) none ∧
      (OnDefineDomain scenarioCodec { Vmi := [1, 2], DomainXML := [7, 7, 7] }).outcome =
        .returned (some { DomainXML := [7, 7, 7] }) none) :=
  ⟨⟨((onDefineDomain_fatal_vs_recovered
        (Usb.scenarioDeviceCodec (some (Usb.scenarioDeviceAnnotations "0951:1665")))
        scenarioCodec [] [7, 7]).1.1 _ rfl).1,
      ((onDefineDomain_fatal_vs_recovered
        (Usb.scenarioDeviceCodec (some (Usb.scenarioDeviceAnnotations "0951:1665")))
        scenarioCodec [1] []).1.2.1
        { Annotations := some (Usb.scenarioDeviceAnnotations "0951:1665") } "0951:1665"
        "0951" "1665" _ rfl rfl (by decide) rfl).1,
      ((onDefineDomain_fatal_vs_recovered
        (Usb.scenarioDeviceCodec (some (Usb.scenarioDeviceAnnotations "0951:1665")))
        scenarioCodec [1] [7, 7]).1.2.2
        { Annotations := some (Usb.scenarioDeviceAnnotations "0951:1665") } "0951:1665"
        "0951" "1665" _ _ rfl rfl (by decide) rfl rfl).1⟩,
    ⟨(onDefineDomain_fatal_vs_recovered Usb.scenarioCodec scenarioCodec [] [7, 7]).2.1 _ rfl,
      (onDefineDomain_fatal_vs_recovered Usb.scenarioCodec scenarioCodec [1, 2] []).2.2.1 _ rfl,
      (onDefineDomain_fatal_vs_recovered Usb.scenarioCodec scenarioCodec [1, 2]
        [7, 7, 7]).2.2.2 { Annotations := some scenarioAnnotations } _ _ rfl rfl rfl⟩⟩

end Ksv

/-! ## Iteration order -/

/-- Looking a key up gives the same in two lists of entries with pairwise distinct
keys that are permutations of each other. -/
theorem lookup_perm {V : Type} (k : String) {l1 l2 : List (String × V)} (hp : l1.Perm l2)
    (hnd : (l1.map Prod.fst).Nodup) : l1.lookup k = l2.lookup k := by
  induction hp with
  | nil => rfl
  | cons x _ ih =>
    obtain ⟨a, b⟩ := x
    rw [List.map_cons, List.nodup_cons] at hnd
    simp only [List.lookup_cons, ih hnd.2]
  | swap x y l =>
    obtain ⟨a, b⟩ := x
    obtain ⟨c, d⟩ := y
    simp only [List.map_cons, List.nodup_cons, List.mem_cons, not_or] at hnd
    have hca : c ≠ a := hnd.1.1
    simp only [List.lookup_cons]
    by_cases h1 : k = a
    · have h2 : (k == c) = false := by
        rw [h1]
        simpa using fun h => hca h.symm
      have h3 : (k == a) = true := by simpa using h1
      simp only [h2, h3]
    · have h3 : (k == a) = false := by simpa using h1
      simp only [h3]
  | trans h12 _ ih1 ih2 =>
    exact (ih1 hnd).trans (ih2 ((h12.map Prod.fst).nodup_iff.mp hnd))

theorem mapIndex_perm (m1 m2 : Option (GoMap String))
    (hp : (mapRange m1).Perm (mapRange m2)) (k : String) :
    mapIndex m1 k = mapIndex m2 k := by
  rw [← lookup_mapRange, ← lookup_mapRange]
  exact lookup_perm k hp (mapRange_nodup m1)

namespace Ksv

theorem diskTuneOf_congr (m1 m2 : GoMap String)
    (h : ∀ k, m1.entries.lookup k = m2.entries.lookup k) : diskTuneOf m1 = diskTuneOf m2 := by
  simp only [diskTuneOf, overlayInt, overlayString, h]

theorem overlayField_perm (m1 m2 : Option (GoMap String))
    (hp : (mapRange m1).Perm (mapRange m2)) (key prior : String) :
    overlayField m1 key prior = overlayField m2 key prior := by
  unfold overlayField
  rw [mapIndex_perm m1 m2 hp]

/-- The switch of the inbound loop, run over the entries in two orders, leaves the
same record. -/
theorem foldl_inboundSwitch_perm (m1 m2 : Option (GoMap String))
    (hp : (mapRange m1).Perm (mapRange m2)) (ib : Inbound) :
    (mapRange m1).foldl (fun s kv => inboundSwitch s kv.1 kv.2) ib =
      (mapRange m2).foldl (fun s kv => inboundSwitch s kv.1 kv.2) ib := by
  have h1 := foldl_inboundSwitch_field m1 ib
  have h2 := foldl_inboundSwitch_field m2 ib
  simp only at h1 h2
  apply Inbound.ext
  · rw [h1.1, h2.1, overlayField_perm m1 m2 hp]
  · rw [h1.2.1, h2.2.1, overlayField_perm m1 m2 hp]
  · rw [h1.2.2.1, h2.2.2.1, overlayField_perm m1 m2 hp]
  · rw [h1.2.2.2, h2.2.2.2, overlayField_perm m1 m2 hp]

theorem foldl_outboundSwitch_perm (m1 m2 : Option (GoMap String))
    (hp : (mapRange m1).Perm (mapRange m2)) (ob : Outbound) :
    (mapRange m1).foldl (fun s kv => outboundSwitch s kv.1 kv.2) ob =
      (mapRange m2).foldl (fun s kv => outboundSwitch s kv.1 kv.2) ob := by
  have h1 := foldl_outboundSwitch_field m1 ob
  have h2 := foldl_outboundSwitch_field m2 ob
  simp only at h1 h2
  apply Outbound.ext
  · rw [h1.1, h2.1, overlayField_perm m1 m2 hp]
  · rw [h1.2.1, h2.2.1, overlayField_perm m1 m2 hp]
  · rw [h1.2.2, h2.2.2, overlayField_perm m1 m2 hp]

/-- The inbound loop gives the same record in whichever order it visits the
entries. -/
theorem foldl_inboundStep_perm (m1 m2 : Option (GoMap String))
    (hp : (mapRange m1).Perm (mapRange m2)) (cur : Option Inbound) :
    (mapRange m1).foldl inboundStep cur = (mapRange m2).foldl inboundStep cur := by
  rw [foldl_inboundStep, foldl_inboundStep]
  by_cases h1 : mapRange m1 = []
  · have h2 : mapRange m2 = [] := by
      rw [h1] at hp
      exact List.nil_perm.mp hp
    rw [if_pos h1, if_pos h2]
  · have h2 : mapRange m2 ≠ [] := by
      intro h
      rw [h] at hp
      exact h1 (List.perm_nil.mp hp)
    rw [if_neg h1, if_neg h2, foldl_inboundSwitch_perm m1 m2 hp]

/-- The outbound loop gives the same record in whichever order it visits the
entries. -/
theorem foldl_outboundStep_perm (m1 m2 : Option (GoMap String))
    (hp : (mapRange m1).Perm (mapRange m2)) (cur : Option Outbound) :
    (mapRange m1).foldl outboundStep cur = (mapRange m2).foldl outboundStep cur := by
  rw [foldl_outboundStep, foldl_outboundStep]
  by_cases h1 : mapRange m1 = []
  · have h2 : mapRange m2 = [] := by
      rw [h1] at hp
      exact List.nil_perm.mp hp
    rw [if_pos h1, if_pos h2]
  · have h2 : mapRange m2 ≠ [] := by
      intro h
      rw [h] at hp
      exact h1 (List.perm_nil.mp hp)
    rw [if_neg h1, if_neg h2, foldl_outboundSwitch_perm m1 m2 hp]

/-! ## Claim on the iteration order -/

/-- C21: with an overlay held as a list of entries with pairwise distinct keys,
`adjustDiskAttributes` gives the same disk for two disk overlays whose lists are
permutations of each other, and `adjustInterfaceAttributes` gives the same
interface for two matched entries whose inbound lists and whose outbound lists
are permutations of each other, and for two bandwidth overlays whose lists are
permutations of each other. -/
theorem merges_order_independent {D R : Type} (d : MyDisk D) (i : MyInterface R) :
    (∀ m1 m2 : GoMap String, m1.entries.Perm m2.entries →
      adjustDiskAttributes (some m1) d = adjustDiskAttributes (some m2) d) ∧
    (∀ (o1 o2 : Option (GoMap (Option MyIfaceTuneAnno))) (mac : MAC)
        (e1 e2 : MyIfaceTuneAnno),
      i.Interface.MAC = some mac →
      mapGet o1 mac.MAC = some e1 → mapGet o2 mac.MAC = some e2 →
      (mapRange e1.Inbound).Perm (mapRange e2.Inbound) →
      (mapRange e1.Outbound).Perm (mapRange e2.Outbound) →
        adjustInterfaceAttributes o1 i = adjustInterfaceAttributes o2 i) ∧
    (∀ o1 o2 : GoMap (Option MyIfaceTuneAnno), o1.entries.Perm o2.entries →
      adjustInterfaceAttributes (some o1) i = adjustInterfaceAttributes (some o2) i) := by
  refine ⟨?_, ?_, ?_⟩
  · intro m1 m2 hp
    rw [adjustDiskAttributes_some, adjustDiskAttributes_some,
      diskTuneOf_congr m1 m2 (fun k => lookup_perm k hp m1.nodup)]
  · intro o1 o2 mac e1 e2 hmac h1 h2 hin hout
    by_cases hne : mac.MAC = ""
    · have hu : ∀ o : Option (GoMap (Option MyIfaceTuneAnno)),
          adjustInterfaceAttributes o i = i := by
        intro o
        apply adjustInterfaceAttributes_unmatched
        intro mac2 hm2 hne2
        rw [hmac] at hm2
        cases hm2
        exact absurd hne hne2
      rw [hu o1, hu o2]
    · rw [adjustInterfaceAttributes_matched o1 i mac e1 hmac hne h1,
        adjustInterfaceAttributes_matched o2 i mac e2 hmac hne h2,
        foldl_inboundStep_perm e1.Inbound e2.Inbound hin,
        foldl_outboundStep_perm e1.Outbound e2.Outbound hout]
  · intro o1 o2 hp
    apply adjustInterfaceAttributes_congr
    intro mac _
    simp only [mapGet, mapIndex, lookup_perm mac.MAC hp o1.nodup]

/-- C21 at the scenarios: the disk overlay with `read_bytes_sec` and
`read_iops_sec` in either order gives the same disk, and the inbound map with
`peak` and `average` in either order gives the same interface. -/
theorem merges_order_independent_witness :
    adjustDiskAttributes (some scenarioDiskOverlay) scenarioThrottledDisk =
        adjustDiskAttributes (some scenarioDiskOverlayReversed) scenarioThrottledDisk ∧
      adjustInterfaceAttributes (some (scenarioBandwidthOf scenarioTwoFieldEntry))
          scenarioShapedInterface =
        adjustInterfaceAttributes (some (scenarioBandwidthOf scenarioTwoFieldEntryReversed))
          scenarioShapedInterface :=
  ⟨(merges_order_independent scenarioThrottledDisk scenarioShapedInterface).1
      scenarioDiskOverlay scenarioDiskOverlayReversed (List.Perm.swap _ _ _),
    (merges_order_independent scenarioThrottledDisk scenarioShapedInterface).2.1
      (some (scenarioBandwidthOf scenarioTwoFieldEntry))
      (some (scenarioBandwidthOf scenarioTwoFieldEntryReversed))
      { MAC := "86:5d:c0:a8:64:dd" } scenarioTwoFieldEntry scenarioTwoFieldEntryReversed
      rfl (by decide) (by decide) (List.Perm.swap _ _ _) (List.Perm.refl _)⟩

end Ksv

namespace Ksv

/-! ## Entries that set no field -/

theorem inboundRecord_eq {R : Type} (i : MyInterface R) :
    (match i.BandWidth with
      | none => none
      | some bw => bw.Inbound) = i.inboundRecord := by
  unfold MyInterface.inboundRecord
  cases i.BandWidth <;> rfl

theorem outboundRecord_eq {R : Type} (i : MyInterface R) :
    (match i.BandWidth with
      | none => none
      | some bw => bw.Outbound) = i.outboundRecord := by
  unfold MyInterface.outboundRecord
  cases i.BandWidth <;> rfl

/-- The bandwidth block after a matched merge. -/
theorem bandWidth_adjust {R : Type}
    (o : Option (GoMap (Option MyIfaceTuneAnno))) (i : MyInterface R) (mac : MAC)
    (e : MyIfaceTuneAnno) (hmac : i.Interface.MAC = some mac) (hne : mac.MAC ≠ "")
    (he : mapGet o mac.MAC = some e) :
    (adjustInterfaceAttributes o i).BandWidth =
      some { Inbound := (mapRange e.Inbound).foldl inboundStep i.inboundRecord,
             Outbound := (mapRange e.Outbound).foldl outboundStep i.outboundRecord } := by
  rw [adjustInterfaceAttributes_matched o i mac e hmac hne he, inboundRecord_eq,
    outboundRecord_eq]

/-- An inbound map without any of the four keys of the inbound switch leaves the
record it is run on as it is. -/
theorem foldl_inboundSwitch_unrecognised (m : Option (GoMap String)) (ib : Inbound)
    (h : ∀ key ∈ ["average", "peak", "burst", "floor"], mapIndex m key = none) :
    (mapRange m).foldl (fun s kv => inboundSwitch s kv.1 kv.2) ib = ib := by
  have hf := foldl_inboundSwitch_field m ib
  simp only [overlayField, h "average" (by decide), h "peak" (by decide),
    h "burst" (by decide), h "floor" (by decide)] at hf
  exact Inbound.ext hf.1 hf.2.1 hf.2.2.1 hf.2.2.2

/-- An outbound map without any of the three keys of the outbound switch leaves
the record it is run on as it is. -/
theorem foldl_outboundSwitch_unrecognised (m : Option (GoMap String)) (ob : Outbound)
    (h : ∀ key ∈ ["average", "peak", "burst"], mapIndex m key = none) :
    (mapRange m).foldl (fun s kv => outboundSwitch s kv.1 kv.2) ob = ob := by
  have hf := foldl_outboundSwitch_field m ob
  simp only [overlayField, h "average" (by decide), h "peak" (by decide),
    h "burst" (by decide)] at hf
  exact Outbound.ext hf.1 hf.2.1 hf.2.2

/-- C22: for an interface whose MAC is matched by a non-nil entry `e`, the result
of `adjustInterfaceAttributes` has a bandwidth block, in which the inbound
(outbound) record is present exactly when the inbound (outbound) map of `e` has
an entry or the interface had the record before. For an interface without a
bandwidth block: when both maps of `e` have no entry the block attached is empty;
when the inbound map has entries but none under `average`, `peak`, `burst` or
`floor`, the inbound record attached has all four fields empty; when the outbound
map has entries but none under `average`, `peak` or `burst` (an outbound `floor`,
say), the outbound record attached has all three fields empty. -/
theorem adjustInterfaceAttributes_attaches_records {R : Type}
    (o : Option (GoMap (Option MyIfaceTuneAnno))) (i : MyInterface R) (mac : MAC)
    (e : MyIfaceTuneAnno) (hmac : i.Interface.MAC = some mac) (hne : mac.MAC ≠ "")
    (he : mapGet o mac.MAC = some e) :
    (∃ bw, (adjustInterfaceAttributes o i).BandWidth = some bw ∧
      (bw.Inbound.isSome = true ↔
        (mapRange e.Inbound ≠ [] ∨ i.inboundRecord.isSome = true)) ∧
      (bw.Outbound.isSome = true ↔
        (mapRange e.Outbound ≠ [] ∨ i.outboundRecord.isSome = true))) ∧
    (i.BandWidth = none → mapRange e.Inbound = [] → mapRange e.Outbound = [] →
      (adjustInterfaceAttributes o i).BandWidth = some { Inbound := none, Outbound := none }) ∧
    (i.BandWidth = none → mapRange e.Inbound ≠ [] →
      (∀ key ∈ ["average", "peak", "burst", "floor"], mapIndex e.Inbound key = none) →
      ∃ bw, (adjustInterfaceAttributes o i).BandWidth = some bw ∧
        bw.Inbound = some { Average := "", Peak := "", Burst := "", Floor := "" }) ∧
    (i.BandWidth = none → mapRange e.Outbound ≠ [] →
      (∀ key ∈ ["average", "peak", "burst"], mapIndex e.Outbound key = none) →
      ∃ bw, (adjustInterfaceAttributes o i).BandWidth = some bw ∧
        bw.Outbound = some { Average := "", Peak := "", Burst := "" }) := by
  have hbw := bandWidth_adjust o i mac e hmac hne he
  refine ⟨⟨_, hbw, ?_, ?_⟩, ?_, ?_, ?_⟩
  · show ((mapRange e.Inbound).foldl inboundStep i.inboundRecord).isSome = true ↔ _
    rw [foldl_inboundStep]
    by_cases hl : mapRange e.Inbound = []
    · simp [hl]
    · simp [hl]
  · show ((mapRange e.Outbound).foldl outboundStep i.outboundRecord).isSome = true ↔ _
    rw [foldl_outboundStep]
    by_cases hl : mapRange e.Outbound = []
    · simp [hl]
    · simp [hl]
  · intro hnone hin hout
    rw [hbw, hin, hout]
    simp only [MyInterface.inboundRecord, MyInterface.outboundRecord, hnone, List.foldl_nil]
  · intro hnone hin hkeys
    refine ⟨_, hbw, ?_⟩
    show (mapRange e.Inbound).foldl inboundStep i.inboundRecord = _
    rw [foldl_inboundStep, if_neg hin, foldl_inboundSwitch_unrecognised e.Inbound _ hkeys]
    simp only [MyInterface.inboundRecord, hnone]
    rfl
  · intro hnone hout hkeys
    refine ⟨_, hbw, ?_⟩
    show (mapRange e.Outbound).foldl outboundStep i.outboundRecord = _
    rw [foldl_outboundStep, if_neg hout, foldl_outboundSwitch_unrecognised e.Outbound _ hkeys]
    simp only [MyInterface.outboundRecord, hnone]
    rfl

/-- C22 at the scenarios: the interface without a bandwidth block gets the empty
block from the entry `{}`, and from the entry `{"outbound":{"floor":"5"}}` a block
without inbound record and with an outbound record whose fields are all empty. -/
theorem adjustInterfaceAttributes_attaches_records_witness :
    (adjustInterfaceAttributes (some (scenarioBandwidthOf scenarioBlankEntry))
        scenarioInterface).BandWidth = some { Inbound := none, Outbound := none } ∧
      (∃ bw, (adjustInterfaceAttributes (some (scenarioBandwidthOf scenarioFloorEntry))
          scenarioInterface).BandWidth = some bw ∧
        bw.Outbound = some { Average := "", Peak := "", Burst := "" }) ∧
      (adjustInterfaceAttributes (some (scenarioBandwidthOf scenarioFloorEntry))
        scenarioInterface).BandWidth =
        some { Inbound := none,
               Outbound := some { Average := "", Peak := "", Burst := "" } } :=
  ⟨(adjustInterfaceAttributes_attaches_records (some (scenarioBandwidthOf scenarioBlankEntry))
      scenarioInterface { MAC := "86:5d:c0:a8:64:dd" } scenarioBlankEntry rfl (by decide)
      (by decide)).2.1 rfl rfl rfl,
    (adjustInterfaceAttributes_attaches_records
      (some (scenarioBandwidthOf scenarioFloorEntry)) scenarioInterface
      { MAC := "86:5d:c0:a8:64:dd" } scenarioFloorEntry rfl (by decide)
      (by decide)).2.2.2 rfl (by decide) (by decide),
    by decide⟩

end Ksv
